import Mathlib

/-!
Verification of the trolley / order-placement core of the `Software_Assign03`
e-commerce backend (`src/backend/app/core/database.py` and
`src/backend/app/models/account.py`).

The relational store is embedded shallowly: each SQL table becomes a list of
row structures inside `DBState`, and each `Database` method becomes a pure
function.  The methods manage transactions manually (`self.commit()` on
success, `self.rollback()` in the `except` branch), which is modelled by a
`Conn` carrying both the last committed state and the working state.

Low-level writes go through `Database._execute`, which re-raises any
`mariadb.Error` from `cursor.execute`.  Whether the k-th `_execute` call of a
method raises is modelled by a fault schedule `f : Nat → Bool` (`f k = true`
means the k-th execute of that method raises).  The read helpers `_fetch_one` /
`_fetch_all` catch database errors internally and are modelled as pure reads
of the state.
-/

set_option maxHeartbeats 1000000

namespace Shop

/-- Row of the `Product` table.  `price` is nullable in the store
(`create_order` explicitly checks `product_info['price'] is None`). -/
structure ProductRow where
  productID : Nat
  name : String
  description : String
  price : Option Int
  stock : Int
  available : Int
  discontinued : Bool
deriving DecidableEq, Repr

/-- Row of the `LineItem` table; `priceAtSale` is NULL until ordered. -/
structure LineItemRow where
  lineItemID : Nat
  productID : Nat
  quantity : Int
  priceAtSale : Option Int
deriving DecidableEq, Repr

/-- Linking row of the `Trolley` table. -/
structure TrolleyRow where
  accountID : Nat
  lineItemID : Nat
deriving DecidableEq, Repr

/-- Row of the `Order` table (the `date` column plays no role in the claims). -/
structure OrderRow where
  orderID : Nat
  accountID : Nat
  addressID : Nat
deriving DecidableEq, Repr

/-- Linking row of the `OrderItem` table. -/
structure OrderItemRow where
  orderID : Nat
  lineItemID : Nat
deriving DecidableEq, Repr

/-- Row of the `Address` table (only the ownership columns matter here). -/
structure AddressRow where
  addressID : Nat
  accountID : Nat
deriving DecidableEq, Repr

/-- Row of the `Tag` table. -/
structure TagRow where
  tagID : Nat
  name : String
deriving DecidableEq, Repr

/-- Linking row of the `Product-Tag` table. -/
structure ProductTagRow where
  productID : Nat
  tagID : Nat
deriving DecidableEq, Repr

/-- The relational store.  `nextLineItemID` / `nextOrderID` model the
AUTO_INCREMENT counters consulted by `cursor.lastrowid`. -/
structure DBState where
  products : List ProductRow
  lineItems : List LineItemRow
  trolley : List TrolleyRow
  orders : List OrderRow
  orderItems : List OrderItemRow
  addresses : List AddressRow
  tags : List TagRow
  productTags : List ProductTagRow
  nextLineItemID : Nat
  nextOrderID : Nat
deriving DecidableEq, Repr

/-- Errors raised by the `Database` methods: `valueError` models Python
`ValueError` (user-correctable validation failure), `dbError` models any other
`Exception` / `mariadb.Error` (internal failure). -/
inductive DBError where
  | valueError (msg : String)
  | dbError (msg : String)
deriving DecidableEq, Repr

/-- A pooled connection with manual transaction control
(`conn.autocommit = False`): `committed` is the durable state, `working` the
state as seen inside the current transaction. -/
structure Conn where
  committed : DBState
  working : DBState
deriving DecidableEq, Repr

/-- A connection with no transaction in progress. -/
def Conn.clean (s : DBState) : Conn := ⟨s, s⟩

/-- Effect of `self.commit()`. -/
def Conn.commit (c : Conn) : Conn := ⟨c.working, c.working⟩

/-- Effect of `self.rollback()`. -/
def Conn.rollback (c : Conn) : Conn := ⟨c.committed, c.committed⟩

/-- The `try: ...; self.commit() except: self.rollback(); raise` pattern
shared by every mutating `Database` method. -/
def runTxn {α : Type} (c : Conn) (body : DBState → Except DBError (α × DBState)) :
    Except DBError α × Conn :=
  match body c.working with
  | .ok (v, w) => (.ok v, Conn.commit ⟨c.committed, w⟩)
  | .error e => (.error e, Conn.rollback c)

/-- Lookup of a `LineItem` row by primary key. -/
def findLineItem (s : DBState) (lid : Nat) : Option LineItemRow :=
  s.lineItems.find? (fun li => li.lineItemID == lid)

/-- `Database.get_product`: `SELECT ... FROM Product WHERE productID = %s`. -/
def get_product (s : DBState) (pid : Nat) : Option ProductRow :=
  s.products.find? (fun p => p.productID == pid)

/-- The address-ownership check of `create_order`:
`SELECT 1 FROM Address WHERE addressID = %s AND accountID = %s`. -/
def addressBelongs (s : DBState) (addressID accountID : Nat) : Bool :=
  s.addresses.any (fun a => a.addressID == addressID && a.accountID == accountID)

/-- One row of the `get_trolley` result view. -/
structure TrolleyView where
  lineItemID : Nat
  productID : Nat
  productName : String
  quantity : Int
  priceAtSale : Option Int
  currentPrice : Option Int
deriving DecidableEq, Repr

/-- `Database.get_trolley`: the `Trolley JOIN LineItem JOIN Product` read. -/
def get_trolley (s : DBState) (accountID : Nat) : List TrolleyView :=
  (s.trolley.filter (fun t => t.accountID == accountID)).filterMap (fun t =>
    match findLineItem s t.lineItemID with
    | none => none
    | some li =>
      match get_product s li.productID with
      | none => none
      | some p =>
        some ⟨li.lineItemID, li.productID, p.name, li.quantity, li.priceAtSale, p.price⟩)

/-- Effect of `INSERT INTO LineItem (productID, quantity) VALUES (%s, %s)`. -/
def insertLineItem (s : DBState) (pid : Nat) (q : Int) : DBState :=
  { s with lineItems := s.lineItems ++ [⟨s.nextLineItemID, pid, q, none⟩],
           nextLineItemID := s.nextLineItemID + 1 }

/-- Effect of `INSERT INTO Trolley (accountID, lineItemID) VALUES (%s, %s)`. -/
def insertTrolley (s : DBState) (a lid : Nat) : DBState :=
  { s with trolley := s.trolley ++ [⟨a, lid⟩] }

/-- `Database.add_to_trolley`.  The quantity check happens before the `try`
block; the two `_execute` calls have fault indices 0 and 1. -/
def add_to_trolley (f : Nat → Bool) (c : Conn) (accountID productID : Nat)
    (quantity : Int) : Except DBError Nat × Conn :=
  if quantity < 1 then (.error (.valueError "Quantity must be at least 1."), c)
  else runTxn c (fun s =>
    if f 0 then .error (.dbError "Failed to create line item.")
    else
      let lid := s.nextLineItemID
      let s1 := insertLineItem s productID quantity
      if f 1 then .error (.dbError "Failed to add line item to trolley.")
      else .ok (lid, insertTrolley s1 accountID lid))

/-- `Database.change_quantity_of_product_in_trolley`.  The lookup mirrors
`SELECT t.lineItemID FROM Trolley t JOIN LineItem li ... WHERE t.accountID = %s
AND li.productID = %s` followed by `fetchone`. -/
def change_quantity_of_product_in_trolley (f : Nat → Bool) (c : Conn)
    (accountID productID : Nat) (newQuantity : Int) : Except DBError Nat × Conn :=
  if newQuantity < 1 then (.error (.valueError "New quantity must be at least 1."), c)
  else runTxn c (fun s =>
    let found := (s.trolley.filter (fun t => t.accountID == accountID)).filterMap
      (fun t =>
        match findLineItem s t.lineItemID with
        | none => none
        | some li => if li.productID == productID then some li.lineItemID else none)
    match found.head? with
    | none => .error (.valueError "Product not found in trolley for account.")
    | some lid =>
      if f 0 then .error (.dbError "Change quantity operation failed.")
      else
        .ok (s.lineItems.countP (fun li => li.lineItemID == lid),
          { s with lineItems := s.lineItems.map (fun li =>
              if li.lineItemID == lid then { li with quantity := newQuantity } else li) }))

/-- `Database.remove_from_trolley`: ownership check, then the Trolley delete
(fault index 0), then the LineItem delete (fault index 1). -/
def remove_from_trolley (f : Nat → Bool) (c : Conn) (accountID lineItemID : Nat) :
    Except DBError (Nat × Nat) × Conn :=
  runTxn c (fun s =>
    if !(s.trolley.any (fun t => t.accountID == accountID && t.lineItemID == lineItemID))
    then .error (.valueError "LineItem not found in trolley for account.")
    else if f 0 then .error (.dbError "Failed to delete from Trolley.")
    else
      let tdel := s.trolley.countP
        (fun t => t.accountID == accountID && t.lineItemID == lineItemID)
      let s1 := { s with trolley := s.trolley.filter (fun t =>
            !(t.accountID == accountID && t.lineItemID == lineItemID)) }
      if tdel == 0 then .error (.dbError "Failed to delete from Trolley.")
      else if f 1 then .error (.dbError "Failed to delete from LineItem table.")
      else
        let ldel := s1.lineItems.countP (fun li => li.lineItemID == lineItemID)
        let s2 := { s1 with lineItems := s1.lineItems.filter (fun li =>
              !(li.lineItemID == lineItemID)) }
        if ldel == 0 then .error (.dbError "Failed to delete from LineItem table.")
        else .ok ((tdel, ldel), s2))

/-- The LineItem-deletability predicate of `clear_trolley`: among the ids that
were in the account's trolley, delete exactly those not referenced by any
`OrderItem` row. -/
def clearDeletable (s : DBState) (ids : List Nat) (li : LineItemRow) : Bool :=
  ids.contains li.lineItemID &&
    !(s.orderItems.any (fun oi => oi.lineItemID == li.lineItemID))

/-- `Database.clear_trolley`: fetch the trolley ids (early `return 0` when
empty), delete the Trolley rows (fault index 0), then delete the LineItems not
referenced by any OrderItem (fault index 1). -/
def clear_trolley (f : Nat → Bool) (c : Conn) (accountID : Nat) :
    Except DBError Nat × Conn :=
  runTxn c (fun s =>
    let ids := (s.trolley.filter (fun t => t.accountID == accountID)).map
      (fun t => t.lineItemID)
    if ids.isEmpty then .ok (0, s)
    else if f 0 then .error (.dbError "Error clearing trolley entries.")
    else
      let s1 := { s with trolley := s.trolley.filter (fun t =>
            !(t.accountID == accountID && ids.contains t.lineItemID)) }
      if f 1 then .error (.dbError "Error deleting orphaned line items.")
      else
        .ok (s1.lineItems.countP (clearDeletable s1 ids),
          { s1 with lineItems := s1.lineItems.filter (fun li =>
              !(clearDeletable s1 ids li)) }))

/-- Effect of `UPDATE LineItem SET priceAtSale = %s WHERE lineItemID = %s`. -/
def setPriceAtSale (s : DBState) (lid : Nat) (v : Int) : DBState :=
  { s with lineItems := s.lineItems.map (fun li =>
      if li.lineItemID == lid then { li with priceAtSale := some v } else li) }

/-- The price-snapshot loop of `create_order`: for each trolley line item,
look up the product's current price and write it into `priceAtSale`.  A
missing product or NULL price aborts; each UPDATE is an `_execute` call whose
fault index is threaded through `k`. -/
def snapshotPrices (f : Nat → Bool) :
    List TrolleyView → DBState → Nat → Except DBError (DBState × Nat)
  | [], s, k => .ok (s, k)
  | item :: rest, s, k =>
    match get_product s item.productID with
    | none => .error (.dbError "Could not fetch price for product.")
    | some p =>
      match p.price with
      | none => .error (.dbError "Could not fetch price for product.")
      | some v =>
        if f k then .error (.dbError "Failed to update priceAtSale.")
        else if s.lineItems.countP (fun li => li.lineItemID == item.lineItemID) == 0
        then .error (.dbError "Failed to update priceAtSale.")
        else snapshotPrices f rest (setPriceAtSale s item.lineItemID v) (k + 1)

/-- Effect of `INSERT INTO Order (accountID, addressID, date) VALUES ...`. -/
def insertOrderRow (s : DBState) (a ad : Nat) : DBState :=
  { s with orders := s.orders ++ [⟨s.nextOrderID, a, ad⟩],
           nextOrderID := s.nextOrderID + 1 }

/-- The OrderItem-link loop of `create_order`: one
`INSERT INTO OrderItem (orderID, lineItemID)` per trolley line item. -/
def linkItems (f : Nat → Bool) (orderID : Nat) :
    List TrolleyView → DBState → Nat → Except DBError (DBState × Nat)
  | [], s, k => .ok (s, k)
  | item :: rest, s, k =>
    if f k then .error (.dbError "Failed to link lineItem to order.")
    else linkItems f orderID rest
      { s with orderItems := s.orderItems ++ [⟨orderID, item.lineItemID⟩] } (k + 1)

/-- `Database.create_order`: address-ownership check, empty-trolley check,
price snapshot, Order insert, OrderItem links, Trolley clear with row-count
verification, commit; any exception rolls the whole transaction back. -/
def create_order (f : Nat → Bool) (c : Conn) (accountID addressID : Nat) :
    Except DBError Nat × Conn :=
  runTxn c (fun s =>
    if !(addressBelongs s addressID accountID) then
      .error (.valueError "Address does not belong to account.")
    else
      let items := get_trolley s accountID
      if items.isEmpty then .error (.valueError "Trolley is empty. Cannot create order.")
      else
        match snapshotPrices f items s 0 with
        | .error e => .error e
        | .ok (s1, k1) =>
          if f k1 then .error (.dbError "Failed to create order entry.")
          else
            let orderID := s1.nextOrderID
            let s2 := insertOrderRow s1 accountID addressID
            match linkItems f orderID items s2 (k1 + 1) with
            | .error e => .error e
            | .ok (s3, k2) =>
              let ids := items.map (fun it => it.lineItemID)
              if ids.isEmpty then .ok (orderID, s3)
              else if f k2 then .error (.dbError "Failed to clear ordered items from trolley.")
              else
                let clearRes := s3.trolley.countP (fun t =>
                  t.accountID == accountID && ids.contains t.lineItemID)
                let s4 := { s3 with trolley := s3.trolley.filter (fun t =>
                  !(t.accountID == accountID && ids.contains t.lineItemID)) }
                if clearRes != ids.length then
                  .error (.dbError "Failed to clear all ordered items from trolley.")
                else .ok (orderID, s4))

/-- The whitelisted keyword arguments of `Database.update_product` after
`filter_dict` (a `none` field was not passed). -/
structure ProductFields where
  name : Option String := none
  description : Option String := none
  price : Option Int := none
  stock : Option Int := none
  available : Option Int := none
  discontinued : Option Bool := none
deriving DecidableEq, Repr

/-- True when no valid field was provided. -/
def ProductFields.isEmpty (u : ProductFields) : Bool :=
  u.name.isNone && u.description.isNone && u.price.isNone &&
    u.stock.isNone && u.available.isNone && u.discontinued.isNone

/-- Application of the generated `UPDATE Product SET ...` clause to one row. -/
def applyProductFields (u : ProductFields) (p : ProductRow) : ProductRow :=
  { p with
    name := u.name.getD p.name,
    description := u.description.getD p.description,
    price := match u.price with | some v => some v | none => p.price,
    stock := u.stock.getD p.stock,
    available := u.available.getD p.available,
    discontinued := u.discontinued.getD p.discontinued }

/-- `Database.update_product`: the no-valid-fields check happens before the
`try` block; the single UPDATE is fault index 0. -/
def update_product (f : Nat → Bool) (c : Conn) (productID : Nat)
    (u : ProductFields) : Except DBError Nat × Conn :=
  if u.isEmpty then
    (.error (.valueError "No valid fields provided for update_product."), c)
  else runTxn c (fun s =>
    if f 0 then .error (.dbError "Update product operation failed.")
    else .ok (s.products.countP (fun p => p.productID == productID),
      { s with products := s.products.map (fun p =>
          if p.productID == productID then applyProductFields u p else p) }))

/-- The `COUNT(DISTINCT t.tagID)` aggregate of the tag-filtered query in
`Database.get_products`, for one product group. -/
def matchedTagIDs (s : DBState) (tagNames : List String) (pid : Nat) : List Nat :=
  ((s.tags.filter (fun t => tagNames.contains t.name &&
      s.productTags.any (fun pt => pt.productID == pid && pt.tagID == t.tagID))).map
    (fun t => t.tagID)).dedup

/-- `Database.get_products`: without tags, all products; with tags, the join
over `Product-Tag` and `Tag` grouped by product with
`HAVING COUNT(DISTINCT t.tagID) = %s` bound to `len(tags)`. -/
def get_products (s : DBState) (tags : List String) : List ProductRow :=
  if tags.isEmpty then s.products
  else s.products.filter (fun p =>
    (matchedTagIDs s tags p.productID).length == tags.length)

/-- Specification-side predicate: the product is associated with the tag name
through some `Tag` row and a `Product-Tag` link. -/
@[reducible] def productHasTag (s : DBState) (pid : Nat) (tagName : String) : Prop :=
  ∃ t ∈ s.tags, t.name = tagName ∧
    ∃ pt ∈ s.productTags, pt.productID = pid ∧ pt.tagID = t.tagID

/-- Account roles (`Role` enum in `database.py`). -/
inductive Role where
  | OWNER
  | ADMIN
  | EMPLOYEE
  | CUSTOMER
  | GUEST
deriving DecidableEq, BEq, Repr

/-- `Account.verify_perms` from `models/account.py`. -/
def verify_perms (role : Role) (required_roles : List Role) (inverse : Bool) : Bool :=
  if role = Role.OWNER then !inverse
  else if inverse then !(required_roles.contains role)
  else required_roles.contains role

/-- Fault schedule on which every `_execute` call succeeds. -/
def noFaults : Nat → Bool := fun _ => false

/-- Fault schedule on which the second `_execute` call of a method raises
(used to exercise the trolley-link failure of `add_to_trolley`). -/
def linkFault : Nat → Bool := fun k => k == 1

/-- Concrete store used by the witness theorems: account 10 owns address 1 and
has line items 7 and 8 in its trolley; line item 3 already belongs to order 1
with a frozen `priceAtSale` of 90; account 12 owns address 3 and has an empty
trolley. -/
def sW : DBState := {
  products := [⟨5, "gpu", "", some 100, 3, 3, false⟩, ⟨6, "cpu", "", some 50, 3, 3, false⟩],
  lineItems := [⟨7, 5, 2, none⟩, ⟨8, 6, 1, none⟩, ⟨3, 5, 1, some 90⟩],
  trolley := [⟨10, 7⟩, ⟨10, 8⟩],
  orders := [⟨1, 10, 1⟩],
  orderItems := [⟨1, 3⟩],
  addresses := [⟨1, 10⟩, ⟨3, 12⟩],
  tags := [⟨1, "alpha"⟩, ⟨2, "beta"⟩],
  productTags := [⟨5, 1⟩, ⟨5, 2⟩, ⟨6, 1⟩],
  nextLineItemID := 20,
  nextOrderID := 2 }

/-- Variant of `sW` in which product 6 (still in account 10's trolley) has a
NULL price, so the price-snapshot step of `create_order` must abort. -/
def sBadPrice : DBState := { sW with
  products := [⟨5, "gpu", "", some 100, 3, 3, false⟩, ⟨6, "cpu", "", none, 3, 3, false⟩] }

/-- The columns of a `LineItem` row other than `priceAtSale`. -/
def liKey (li : LineItemRow) : Nat × Nat × Int := (li.lineItemID, li.productID, li.quantity)

/-- The `lineItemID`s currently linked to the account's trolley (the
`SELECT lineItemID FROM Trolley WHERE accountID = %s` read of
`clear_trolley`). -/
def trolleyIDs (s : DBState) (accountID : Nat) : List Nat :=
  (s.trolley.filter (fun t => t.accountID == accountID)).map (fun t => t.lineItemID)

/-- The line item is referenced by some `OrderItem` row (it belongs to a
placed order). -/
@[reducible] def referencedByOrder (s : DBState) (lid : Nat) : Prop :=
  ∃ oi ∈ s.orderItems, oi.lineItemID = lid

/-- The line item is linked to the given account's trolley. -/
@[reducible] def trolleyLinkedTo (s : DBState) (accountID lid : Nat) : Prop :=
  ∃ t ∈ s.trolley, t.accountID = accountID ∧ t.lineItemID = lid

/-- The `priceAtSale` column of the line item, when the row exists. -/
def priceAtSaleOf (s : DBState) (lid : Nat) : Option (Option Int) :=
  (findLineItem s lid).map (fun li => li.priceAtSale)

/-- Schema-level well-formedness of the store, the "three-state LineItem"
invariant of the specification restricted to what the schema and the
`Database` mutators maintain: an ordered line item is never still
trolley-linked; `OrderItem` and `Trolley` rows reference existing `LineItem`
rows; a line item sits in at most one trolley row; and the AUTO_INCREMENT
counter is ahead of every existing `lineItemID`. -/
@[reducible] def Inv (s : DBState) : Prop :=
  (∀ oi ∈ s.orderItems, ∀ t ∈ s.trolley, t.lineItemID ≠ oi.lineItemID) ∧
  (∀ oi ∈ s.orderItems, ∃ li ∈ s.lineItems, li.lineItemID = oi.lineItemID) ∧
  (∀ t ∈ s.trolley, ∃ li ∈ s.lineItems, li.lineItemID = t.lineItemID) ∧
  (∀ t1 ∈ s.trolley, ∀ t2 ∈ s.trolley, t1.lineItemID = t2.lineItemID → t1 = t2) ∧
  (∀ li ∈ s.lineItems, li.lineItemID < s.nextLineItemID)

/-- One committed execution of any mutating `Database` operation, viewed as a
step relation on the store: the successor state is whatever the operation
leaves as the committed state (the pre-state again when it raised). -/
inductive Step : DBState → DBState → Prop where
  | stepAddToTrolley (s : DBState) (f : Nat → Bool) (a pid : Nat) (q : Int) :
      Step s ((add_to_trolley f (Conn.clean s) a pid q).2).committed
  | stepChangeQuantity (s : DBState) (f : Nat → Bool) (a pid : Nat) (q : Int) :
      Step s ((change_quantity_of_product_in_trolley f (Conn.clean s) a pid q).2).committed
  | stepRemoveFromTrolley (s : DBState) (f : Nat → Bool) (a lid : Nat) :
      Step s ((remove_from_trolley f (Conn.clean s) a lid).2).committed
  | stepClearTrolley (s : DBState) (f : Nat → Bool) (a : Nat) :
      Step s ((clear_trolley f (Conn.clean s) a).2).committed
  | stepCreateOrder (s : DBState) (f : Nat → Bool) (a ad : Nat) :
      Step s ((create_order f (Conn.clean s) a ad).2).committed
  | stepUpdateProduct (s : DBState) (f : Nat → Bool) (pid : Nat) (u : ProductFields) :
      Step s ((update_product f (Conn.clean s) pid u).2).committed

/-- A price-only field update, as a route handler would pass to
`update_product`. -/
def priceOnly : ProductFields := { price := some 200 }

/-- The state after committing a `update_product` call that changes product
5's current price on `sW` (used to witness C3). -/
def sWstep : DBState := ((update_product noFaults (Conn.clean sW) 5 priceOnly).2).committed

end Shop

namespace Shop

/-! Transaction-level lemmas. -/

theorem runTxn_error {α : Type} {c : Conn} {body : DBState → Except DBError (α × DBState)}
    {e : DBError} {c' : Conn} (h : runTxn c body = (.error e, c')) :
    c' = Conn.rollback c := by
  unfold runTxn at h
  split at h
  · injection h with h1 h2
    exact Except.noConfusion h1
  · injection h with h1 h2
    exact h2.symm

theorem runTxn_ok {α : Type} {c : Conn} {body : DBState → Except DBError (α × DBState)}
    {v : α} {c' : Conn} (h : runTxn c body = (.ok v, c')) :
    ∃ w, body c.working = .ok (v, w) ∧ c' = Conn.clean w := by
  unfold runTxn at h
  split at h
  next v2 w heq =>
    injection h with h1 h2
    injection h1 with h1
    exact ⟨w, by rw [heq, h1], h2.symm⟩
  next e2 heq =>
    injection h with h1 h2
    exact Except.noConfusion h1

theorem rollback_clean (s : DBState) : Conn.rollback (Conn.clean s) = Conn.clean s := rfl

/-! Every mutating method leaves the committed state untouched on any error
(either the pre-`try` validation returns with no statement executed, or the
`except` branch rolls the transaction back). -/

theorem add_to_trolley_error_state {f : Nat → Bool} {s : DBState} {a pid : Nat} {q : Int}
    {e : DBError} {c' : Conn} (h : add_to_trolley f (Conn.clean s) a pid q = (.error e, c')) :
    c' = Conn.clean s := by
  unfold add_to_trolley at h
  split at h
  · injection h with h1 h2
    exact h2.symm
  · exact runTxn_error h

theorem change_quantity_error_state {f : Nat → Bool} {s : DBState} {a pid : Nat} {q : Int}
    {e : DBError} {c' : Conn}
    (h : change_quantity_of_product_in_trolley f (Conn.clean s) a pid q = (.error e, c')) :
    c' = Conn.clean s := by
  unfold change_quantity_of_product_in_trolley at h
  split at h
  · injection h with h1 h2
    exact h2.symm
  · exact runTxn_error h

theorem remove_from_trolley_error_state {f : Nat → Bool} {s : DBState} {a lid : Nat}
    {e : DBError} {c' : Conn}
    (h : remove_from_trolley f (Conn.clean s) a lid = (.error e, c')) :
    c' = Conn.clean s :=
  runTxn_error h

theorem clear_trolley_error_state {f : Nat → Bool} {s : DBState} {a : Nat}
    {e : DBError} {c' : Conn} (h : clear_trolley f (Conn.clean s) a = (.error e, c')) :
    c' = Conn.clean s :=
  runTxn_error h

theorem create_order_error_state {f : Nat → Bool} {s : DBState} {a ad : Nat}
    {e : DBError} {c' : Conn} (h : create_order f (Conn.clean s) a ad = (.error e, c')) :
    c' = Conn.clean s :=
  runTxn_error h

theorem update_product_error_state {f : Nat → Bool} {s : DBState} {pid : Nat}
    {u : ProductFields} {e : DBError} {c' : Conn}
    (h : update_product f (Conn.clean s) pid u = (.error e, c')) :
    c' = Conn.clean s := by
  unfold update_product at h
  split at h
  · injection h with h1 h2
    exact h2.symm
  · exact runTxn_error h

/-- C10: `Account.verify_perms` treats the owner role as an unconditional
superuser override: with `inverse = false` it returns `True` and with
`inverse = true` it returns `False`, whatever `required_roles` contains. -/
theorem verify_perms_owner_override (required_roles : List Role) :
    verify_perms Role.OWNER required_roles false = true ∧
    verify_perms Role.OWNER required_roles true = false :=
  ⟨rfl, rfl⟩

/-- C7: for every quantity argument less than 1, both `add_to_trolley` and
`change_quantity_of_product_in_trolley` reject the call with a `ValueError`
and leave the connection (hence the store) unchanged. -/
theorem quantity_lt_one_rejected (f : Nat → Bool) (c : Conn) (accountID productID : Nat)
    (q : Int) (h : q < 1) :
    add_to_trolley f c accountID productID q =
      (.error (.valueError "Quantity must be at least 1."), c) ∧
    change_quantity_of_product_in_trolley f c accountID productID q =
      (.error (.valueError "New quantity must be at least 1."), c) := by
  constructor
  · unfold add_to_trolley
    rw [if_pos h]
  · unfold change_quantity_of_product_in_trolley
    rw [if_pos h]

/-- Witness for C7 at quantity 0 on a concrete store. -/
theorem quantity_lt_one_rejected_witness :
    add_to_trolley noFaults (Conn.clean sW) 10 6 0 =
      (.error (.valueError "Quantity must be at least 1."), Conn.clean sW) ∧
    change_quantity_of_product_in_trolley noFaults (Conn.clean sW) 10 6 0 =
      (.error (.valueError "New quantity must be at least 1."), Conn.clean sW) :=
  quantity_lt_one_rejected noFaults (Conn.clean sW) 10 6 0 (by decide)

/-- C4: `create_order` validates its two preconditions before any mutation:
a foreign address fails with a `ValueError` (distinguished by constructor from
the `dbError` internal failures) and an empty trolley fails with a
`ValueError`; in both cases the committed and working states are unchanged. -/
theorem create_order_precondition_checks (f : Nat → Bool) (s : DBState)
    (accountID addressID : Nat) :
    (addressBelongs s addressID accountID = false →
      create_order f (Conn.clean s) accountID addressID =
        (.error (.valueError "Address does not belong to account."), Conn.clean s)) ∧
    (addressBelongs s addressID accountID = true → get_trolley s accountID = [] →
      create_order f (Conn.clean s) accountID addressID =
        (.error (.valueError "Trolley is empty. Cannot create order."), Conn.clean s)) := by
  constructor
  · intro hA
    unfold create_order runTxn
    simp [Conn.clean, Conn.rollback, hA]
  · intro hA hT
    unfold create_order runTxn
    simp [Conn.clean, Conn.rollback, hA, hT]

/-- Witness for C4: address 99 is foreign to account 10, and account 12 has a
valid address but an empty trolley. -/
theorem create_order_precondition_checks_witness :
    create_order noFaults (Conn.clean sW) 10 99 =
      (.error (.valueError "Address does not belong to account."), Conn.clean sW) ∧
    create_order noFaults (Conn.clean sW) 12 3 =
      (.error (.valueError "Trolley is empty. Cannot create order."), Conn.clean sW) :=
  ⟨(create_order_precondition_checks noFaults sW 10 99).1 (by decide),
   (create_order_precondition_checks noFaults sW 12 3).2 (by decide) (by decide)⟩

/-! Lemmas about the price-snapshot loop of `create_order`. -/

theorem get_product_congr {s1 s2 : DBState} (h : s1.products = s2.products) :
    ∀ pid, get_product s1 pid = get_product s2 pid := by
  intro pid
  unfold get_product
  rw [h]

theorem findLineItem_congr {s1 s2 : DBState} (h : s1.lineItems = s2.lineItems) :
    ∀ lid, findLineItem s1 lid = findLineItem s2 lid := by
  intro lid
  unfold findLineItem
  rw [h]

theorem findLineItem_setPriceAtSale (s : DBState) (x : Nat) (v : Int) (lid : Nat) :
    findLineItem (setPriceAtSale s x v) lid =
      (findLineItem s lid).map (fun li =>
        if li.lineItemID == x then { li with priceAtSale := some v } else li) := by
  unfold findLineItem setPriceAtSale
  rw [List.find?_map]
  have hpe : ((fun li : LineItemRow => li.lineItemID == lid) ∘ (fun li =>
      if li.lineItemID == x then { li with priceAtSale := some v } else li)) =
      (fun li : LineItemRow => li.lineItemID == lid) := by
    funext li
    by_cases hx : li.lineItemID == x <;> simp [hx, Function.comp]
  rw [hpe]

theorem findLineItem_setPriceAtSale_ne (s : DBState) (x : Nat) (v : Int) (lid : Nat)
    (h : lid ≠ x) :
    findLineItem (setPriceAtSale s x v) lid = findLineItem s lid := by
  rw [findLineItem_setPriceAtSale]
  cases hf : findLineItem s lid with
  | none => rfl
  | some li =>
    have hp : li.lineItemID = lid := by simpa using List.find?_some hf
    simp [hp, h]

theorem snapshotPrices_ok_frame (f : Nat → Bool) :
    ∀ (items : List TrolleyView) (s s1 : DBState) (k k1 : Nat),
      snapshotPrices f items s k = .ok (s1, k1) →
      s1.products = s.products ∧ s1.trolley = s.trolley ∧ s1.orders = s.orders ∧
        s1.orderItems = s.orderItems ∧ s1.addresses = s.addresses ∧
        s1.tags = s.tags ∧ s1.productTags = s.productTags ∧
        s1.nextLineItemID = s.nextLineItemID ∧ s1.nextOrderID = s.nextOrderID := by
  intro items
  induction items with
  | nil =>
    intro s s1 k k1 h
    unfold snapshotPrices at h
    injection h with h1
    injection h1 with ha hb
    subst ha
    exact ⟨rfl, rfl, rfl, rfl, rfl, rfl, rfl, rfl, rfl⟩
  | cons it rest ih =>
    intro s s1 k k1 h
    unfold snapshotPrices at h
    split at h
    · exact Except.noConfusion h
    split at h
    · exact Except.noConfusion h
    split at h
    · exact Except.noConfusion h
    split at h
    · exact Except.noConfusion h
    have hr := ih _ _ _ _ h
    simpa [setPriceAtSale] using hr

theorem snapshotPrices_ok_untouched (f : Nat → Bool) :
    ∀ (items : List TrolleyView) (s s1 : DBState) (k k1 : Nat),
      snapshotPrices f items s k = .ok (s1, k1) →
      ∀ lid, (∀ it ∈ items, it.lineItemID ≠ lid) →
        findLineItem s1 lid = findLineItem s lid := by
  intro items
  induction items with
  | nil =>
    intro s s1 k k1 h lid _
    unfold snapshotPrices at h
    injection h with h1
    injection h1 with ha hb
    subst ha
    rfl
  | cons it rest ih =>
    intro s s1 k k1 h lid hne
    unfold snapshotPrices at h
    split at h
    · exact Except.noConfusion h
    split at h
    · exact Except.noConfusion h
    split at h
    · exact Except.noConfusion h
    split at h
    · exact Except.noConfusion h
    next v hv =>
      rw [ih _ _ _ _ h lid (fun x hx => hne x (List.mem_cons_of_mem _ hx))]
      exact findLineItem_setPriceAtSale_ne s it.lineItemID _ lid
        (fun hl => hne it (List.mem_cons_self it rest) hl.symm)

theorem snapshotPrices_ok_keys (f : Nat → Bool) :
    ∀ (items : List TrolleyView) (s s1 : DBState) (k k1 : Nat),
      snapshotPrices f items s k = .ok (s1, k1) →
      s1.lineItems.map liKey = s.lineItems.map liKey := by
  intro items
  induction items with
  | nil =>
    intro s s1 k k1 h
    unfold snapshotPrices at h
    injection h with h1
    injection h1 with ha hb
    subst ha
    rfl
  | cons it rest ih =>
    intro s s1 k k1 h
    unfold snapshotPrices at h
    split at h
    · exact Except.noConfusion h
    split at h
    · exact Except.noConfusion h
    split at h
    · exact Except.noConfusion h
    split at h
    · exact Except.noConfusion h
    rw [ih _ _ _ _ h]
    unfold setPriceAtSale liKey
    simp only [List.map_map]
    congr 1
    funext li
    by_cases hx : li.lineItemID == it.lineItemID <;> simp [hx, Function.comp, liKey]

/-- A line item is "correctly priced" when its row carries `priceAtSale`
equal to its product's current price. -/
theorem snapshotPrices_preserves_priced (f : Nat → Bool) :
    ∀ (items : List TrolleyView) (s s1 : DBState) (k k1 : Nat),
      (∀ it ∈ items, ∀ li, findLineItem s it.lineItemID = some li →
        li.productID = it.productID) →
      snapshotPrices f items s k = .ok (s1, k1) →
      ∀ lid li, findLineItem s lid = some li →
        (∃ p v, get_product s li.productID = some p ∧ p.price = some v ∧
          li.priceAtSale = some v) →
        ∃ li1, findLineItem s1 lid = some li1 ∧ li1.productID = li.productID ∧
          (∃ p v, get_product s li1.productID = some p ∧ p.price = some v ∧
            li1.priceAtSale = some v) := by
  intro items
  induction items with
  | nil =>
    intro s s1 k k1 _ h lid li hfind hpriced
    unfold snapshotPrices at h
    injection h with h1
    injection h1 with ha hb
    subst ha
    exact ⟨li, hfind, rfl, hpriced⟩
  | cons it rest ih =>
    intro s s1 k k1 hcoh h lid li hfind hpriced
    unfold snapshotPrices at h
    split at h
    · exact Except.noConfusion h
    next p hg =>
      split at h
      · exact Except.noConfusion h
      next v hv =>
        split at h
        · exact Except.noConfusion h
        split at h
        · exact Except.noConfusion h
        -- h : snapshotPrices f rest (setPriceAtSale s it.lineItemID v) (k+1) = .ok (s1, k1)
        set s2 := setPriceAtSale s it.lineItemID v with hs2
        have hprodeq : s2.products = s.products := rfl
        have hcoh2 : ∀ it2 ∈ rest, ∀ li2, findLineItem s2 it2.lineItemID = some li2 →
            li2.productID = it2.productID := by
          intro it2 hmem li2 hf2
          rw [findLineItem_setPriceAtSale] at hf2
          cases hf0 : findLineItem s it2.lineItemID with
          | none => rw [hf0] at hf2; exact Option.noConfusion hf2
          | some li0 =>
            rw [hf0] at hf2
            injection hf2 with hf2
            have := hcoh it2 (List.mem_cons_of_mem _ hmem) li0 hf0
            by_cases hx : li0.lineItemID == it.lineItemID <;> simp [hx] at hf2 <;>
              rw [← hf2] <;> exact this
        -- the row for lid in s2, still correctly priced
        have hlidli : li.lineItemID = lid := by simpa using List.find?_some hfind
        have hmap : findLineItem s2 lid = some
            (if li.lineItemID == it.lineItemID then { li with priceAtSale := some v }
              else li) := by
          rw [hs2, findLineItem_setPriceAtSale, hfind, Option.map_some']
        have hstep : ∃ li2, findLineItem s2 lid = some li2 ∧ li2.productID = li.productID ∧
            (∃ p2 v2, get_product s2 li2.productID = some p2 ∧ p2.price = some v2 ∧
              li2.priceAtSale = some v2) := by
          by_cases hx : li.lineItemID == it.lineItemID
          · rw [if_pos hx] at hmap
            refine ⟨{ li with priceAtSale := some v }, hmap, rfl, p, v, ?_, hv, rfl⟩
            have hlid : li.lineItemID = it.lineItemID := by simpa using hx
            have hpid : li.productID = it.productID := by
              apply hcoh it (List.mem_cons_self it rest) li
              rw [← hlid, hlidli]
              exact hfind
            show get_product s2 li.productID = some p
            rw [get_product_congr hprodeq, hpid]
            exact hg
          · rw [if_neg hx] at hmap
            obtain ⟨p2, v2, hp2, hv2, hpr⟩ := hpriced
            exact ⟨li, hmap, rfl, p2, v2,
              by rw [get_product_congr hprodeq]; exact hp2, hv2, hpr⟩
        obtain ⟨li2, hf2, hpid2, hpriced2⟩ := hstep
        obtain ⟨li1, hf1, hpid1, hpriced1⟩ := ih _ _ _ _ hcoh2 h lid li2 hf2 hpriced2
        refine ⟨li1, hf1, by rw [hpid1, hpid2], ?_⟩
        obtain ⟨p1, v1, hp1, hv1, hpr1⟩ := hpriced1
        exact ⟨p1, v1, by rw [← get_product_congr hprodeq]; exact hp1, hv1, hpr1⟩

theorem snapshotPrices_establishes_priced (f : Nat → Bool) :
    ∀ (items : List TrolleyView) (s s1 : DBState) (k k1 : Nat),
      (∀ it ∈ items, ∀ li, findLineItem s it.lineItemID = some li →
        li.productID = it.productID) →
      snapshotPrices f items s k = .ok (s1, k1) →
      ∀ it ∈ items, ∃ li1, findLineItem s1 it.lineItemID = some li1 ∧
        li1.productID = it.productID ∧
        (∃ p v, get_product s li1.productID = some p ∧ p.price = some v ∧
          li1.priceAtSale = some v) := by
  intro items
  induction items with
  | nil =>
    intro s s1 k k1 _ h it hmem
    exact absurd hmem (List.not_mem_nil it)
  | cons it0 rest ih =>
    intro s s1 k k1 hcoh h it hmem
    unfold snapshotPrices at h
    split at h
    · exact Except.noConfusion h
    next p hg =>
      split at h
      · exact Except.noConfusion h
      next v hv =>
        split at h
        · exact Except.noConfusion h
        split at h
        · exact Except.noConfusion h
        next hcount =>
          set s2 := setPriceAtSale s it0.lineItemID v with hs2
          have hprodeq : s2.products = s.products := rfl
          have hcoh2 : ∀ it2 ∈ rest, ∀ li2, findLineItem s2 it2.lineItemID = some li2 →
              li2.productID = it2.productID := by
            intro it2 hm li2 hf2
            rw [findLineItem_setPriceAtSale] at hf2
            cases hf0 : findLineItem s it2.lineItemID with
            | none => rw [hf0] at hf2; exact Option.noConfusion hf2
            | some li0 =>
              rw [hf0] at hf2
              injection hf2 with hf2
              have := hcoh it2 (List.mem_cons_of_mem _ hm) li0 hf0
              by_cases hx : li0.lineItemID == it0.lineItemID <;> simp [hx] at hf2 <;>
                rw [← hf2] <;> exact this
          rcases List.mem_cons.mp hmem with hit | hit
          · -- the head item: its row exists and is priced in s2; the rest preserves that
            subst hit
            have hex : ∃ li ∈ s.lineItems, li.lineItemID == it.lineItemID := by
              by_contra hno
              push_neg at hno
              have : s.lineItems.countP (fun li => li.lineItemID == it.lineItemID) = 0 :=
                List.countP_eq_zero.mpr (by
                  intro a ha
                  simpa using hno a ha)
              simp [this] at hcount
            have hfind0 : ∃ li0, findLineItem s it.lineItemID = some li0 := by
              obtain ⟨li, hmem2, hp⟩ := hex
              have : (s.lineItems.find? (fun li => li.lineItemID == it.lineItemID)).isSome :=
                List.find?_isSome.mpr ⟨li, hmem2, hp⟩
              exact Option.isSome_iff_exists.mp this
            obtain ⟨li0, hf0⟩ := hfind0
            have hlid0 : li0.lineItemID = it.lineItemID := by
              simpa using List.find?_some hf0
            have hpid0 : li0.productID = it.productID :=
              hcoh it (List.mem_cons_self it rest) li0 hf0
            have hf2 : findLineItem s2 it.lineItemID =
                some { li0 with priceAtSale := some v } := by
              rw [hs2, findLineItem_setPriceAtSale, hf0]
              simp [hlid0]
            have hpriced2 : ∃ p2 v2,
                get_product s2 ({ li0 with priceAtSale := some v }).productID = some p2 ∧
                  p2.price = some v2 ∧
                  ({ li0 with priceAtSale := some v }).priceAtSale = some v2 := by
              refine ⟨p, v, ?_, hv, rfl⟩
              show get_product s2 li0.productID = some p
              rw [get_product_congr hprodeq, hpid0]
              exact hg
            obtain ⟨li1, hf1, hpid1, hpriced1⟩ :=
              snapshotPrices_preserves_priced f rest s2 s1 _ _ hcoh2 h
                it.lineItemID _ hf2 hpriced2
            refine ⟨li1, hf1, hpid1.trans hpid0, ?_⟩
            obtain ⟨p1, v1, hp1, hv1, hpr1⟩ := hpriced1
            have : get_product s li1.productID = some p1 := by
              rw [← get_product_congr hprodeq]
              exact hp1
            exact ⟨p1, v1, this, hv1, hpr1⟩
          · obtain ⟨li1, hf1, hpid1, p1, v1, hp1, hv1, hpr1⟩ := ih s2 s1 _ _ hcoh2 h it hit
            exact ⟨li1, hf1, hpid1, p1, v1,
              by rw [← get_product_congr hprodeq]; exact hp1, hv1, hpr1⟩

/-- Any item of the trolley view is backed by exactly the `LineItem` row that
`findLineItem` returns, with matching product. -/
theorem get_trolley_mem {s : DBState} {accountID : Nat} {it : TrolleyView}
    (h : it ∈ get_trolley s accountID) :
    ∃ t ∈ s.trolley, t.accountID = accountID ∧ it.lineItemID = t.lineItemID ∧
      ∃ li, findLineItem s t.lineItemID = some li ∧ li.lineItemID = it.lineItemID ∧
        li.productID = it.productID ∧ li.priceAtSale = it.priceAtSale := by
  unfold get_trolley at h
  obtain ⟨t, ht, hmk⟩ := List.mem_filterMap.mp h
  have htacc : t.accountID = accountID := by
    have := List.mem_filter.mp ht
    simpa using this.2
  have htmem : t ∈ s.trolley := (List.mem_filter.mp ht).1
  cases hli : findLineItem s t.lineItemID with
  | none =>
    rw [hli] at hmk
    dsimp only at hmk
    exact Option.noConfusion hmk
  | some li =>
    rw [hli] at hmk
    dsimp only at hmk
    cases hp : get_product s li.productID with
    | none =>
      rw [hp] at hmk
      dsimp only at hmk
      exact Option.noConfusion hmk
    | some p =>
      rw [hp] at hmk
      dsimp only at hmk
      injection hmk with hmk
      have hlid : li.lineItemID = t.lineItemID := by simpa using List.find?_some hli
      refine ⟨t, htmem, htacc, ?_, li, hli, ?_, ?_, ?_⟩ <;> rw [← hmk] <;> simp [hlid]

/-- The coherence hypothesis needed by the snapshot lemmas holds for the real
trolley view. -/
theorem get_trolley_coherent (s : DBState) (accountID : Nat) :
    ∀ it ∈ get_trolley s accountID, ∀ li, findLineItem s it.lineItemID = some li →
      li.productID = it.productID := by
  intro it hmem li hfind
  obtain ⟨t, _, _, heq, li0, hf0, hl0, hp0, _⟩ := get_trolley_mem hmem
  rw [heq] at hfind
  rw [hf0] at hfind
  injection hfind with hfind
  rw [← hfind]
  exact hp0

theorem linkItems_ok (f : Nat → Bool) (orderID : Nat) :
    ∀ (items : List TrolleyView) (s s1 : DBState) (k k1 : Nat),
      linkItems f orderID items s k = .ok (s1, k1) →
      s1 = { s with orderItems := (s.orderItems ++
        items.map (fun it => (⟨orderID, it.lineItemID⟩ : OrderItemRow))) } := by
  intro items
  induction items with
  | nil =>
    intro s s1 k k1 h
    unfold linkItems at h
    injection h with h1
    injection h1 with ha hb
    subst ha
    simp
  | cons it rest ih =>
    intro s s1 k k1 h
    unfold linkItems at h
    split at h
    · exact Except.noConfusion h
    have := ih _ _ _ _ h
    rw [this]
    simp

/-- Successful `create_order` runs decompose into the snapshot phase followed
by the Order insert, the OrderItem links and the Trolley delete. -/
theorem create_order_ok_shape {f : Nat → Bool} {s : DBState} {a ad oid : Nat} {c' : Conn}
    (h : create_order f (Conn.clean s) a ad = (.ok oid, c')) :
    addressBelongs s ad a = true ∧ get_trolley s a ≠ [] ∧
    ∃ s1 k1, snapshotPrices f (get_trolley s a) s 0 = .ok (s1, k1) ∧
      oid = s1.nextOrderID ∧
      c' = Conn.clean { s1 with
        orders := (s1.orders ++ [⟨s1.nextOrderID, a, ad⟩]),
        orderItems := (s1.orderItems ++ (get_trolley s a).map (fun it =>
          (⟨s1.nextOrderID, it.lineItemID⟩ : OrderItemRow))),
        trolley := (s1.trolley.filter (fun t => !(t.accountID == a &&
          ((get_trolley s a).map (fun it => it.lineItemID)).contains t.lineItemID))),
        nextOrderID := s1.nextOrderID + 1 } := by
  unfold create_order at h
  obtain ⟨w, hbody, hc'⟩ := runTxn_ok h
  dsimp only [Conn.clean] at hbody
  split at hbody
  · exact Except.noConfusion hbody
  next hA =>
    split at hbody
    · exact Except.noConfusion hbody
    next hT =>
      split at hbody
      · exact Except.noConfusion hbody
      next s1 k1 hsnap =>
        split at hbody
        · exact Except.noConfusion hbody
        next hf1 =>
          split at hbody
          · exact Except.noConfusion hbody
          next s3 k2 hlink =>
            rw [linkItems_ok f s1.nextOrderID _ _ _ _ _ hlink] at hbody
            split at hbody
            next hid =>
              exfalso
              rw [List.isEmpty_iff] at hid
              have : get_trolley s a = [] := by
                have := List.map_eq_nil.mp hid
                exact this
              rw [this] at hT
              simp at hT
            next hid =>
              split at hbody
              · exact Except.noConfusion hbody
              split at hbody
              · exact Except.noConfusion hbody
              injection hbody with h1
              injection h1 with ha hb
              refine ⟨by simpa using hA, by simpa using hT, s1, k1, hsnap, ha.symm, ?_⟩
              rw [hc', ← hb]
              dsimp only [insertOrderRow]

/-- C1: when `create_order` succeeds, every line item that was in the
account's trolley is linked to the returned order by an `OrderItem` row, its
`priceAtSale` equals the `Product` price of its product at the time of the
call, and `get_trolley` on the resulting store no longer returns it. -/
theorem create_order_success_spec (f : Nat → Bool) (s : DBState)
    (accountID addressID oid : Nat) (c' : Conn)
    (h : create_order f (Conn.clean s) accountID addressID = (.ok oid, c')) :
    ∀ it ∈ get_trolley s accountID,
      (⟨oid, it.lineItemID⟩ : OrderItemRow) ∈ c'.committed.orderItems ∧
      (∃ li p, findLineItem c'.committed it.lineItemID = some li ∧
        get_product s it.productID = some p ∧ li.priceAtSale = p.price) ∧
      (∀ v ∈ get_trolley c'.committed accountID, v.lineItemID ≠ it.lineItemID) := by
  intro it hmem
  obtain ⟨hA, hT, s1, k1, hsnap, hoid, hc'⟩ := create_order_ok_shape h
  subst hoid
  subst hc'
  refine ⟨?_, ?_, ?_⟩
  · -- the OrderItem link exists
    apply List.mem_append_right
    exact List.mem_map.mpr ⟨it, hmem, rfl⟩
  · -- priceAtSale was snapshotted from the product's current price
    obtain ⟨li1, hf1, hpid1, p1, v1, hp1, hv1, hpr1⟩ :=
      snapshotPrices_establishes_priced f _ s s1 0 k1
        (get_trolley_coherent s accountID) hsnap it hmem
    refine ⟨li1, p1, ?_, ?_, ?_⟩
    · show findLineItem s1 it.lineItemID = some li1
      exact hf1
    · rw [← hpid1]
      exact hp1
    · rw [hpr1, hv1]
  · -- no trolley row for those line items survives
    intro v hv
    obtain ⟨t, htmem, htacc, hvlid, _⟩ := get_trolley_mem hv
    have htf := List.mem_filter.mp htmem
    have hkeep := htf.2
    rw [htacc] at hkeep
    simp only [beq_self_eq_true, Bool.true_and, Bool.not_eq_true'] at hkeep
    intro hcontra
    rw [hvlid] at hcontra
    have hmemmap : t.lineItemID ∈ (get_trolley s accountID).map (fun it => it.lineItemID) :=
      List.mem_map.mpr ⟨it, hmem, hcontra.symm⟩
    have hcont : ((get_trolley s accountID).map (fun it => it.lineItemID)).contains
        t.lineItemID = true := by
      simpa [List.contains] using hmemmap
    rw [hcont] at hkeep
    exact Bool.noConfusion hkeep

/-- Witness for C1: account 10 orders its two-item trolley on `sW`;
instantiated at the trolley line item 7 (product 5, current price 100). -/
theorem create_order_success_spec_witness :
    (⟨2, 7⟩ : OrderItemRow) ∈
      ((create_order noFaults (Conn.clean sW) 10 1).2).committed.orderItems ∧
    (∃ li p, findLineItem ((create_order noFaults (Conn.clean sW) 10 1).2).committed
        7 = some li ∧
      get_product sW 5 = some p ∧ li.priceAtSale = p.price) ∧
    (∀ v ∈ get_trolley ((create_order noFaults (Conn.clean sW) 10 1).2).committed 10,
      v.lineItemID ≠ 7) :=
  create_order_success_spec noFaults sW 10 1 2
    ((create_order noFaults (Conn.clean sW) 10 1).2) rfl
    ⟨7, 5, "gpu", 2, none, some 100⟩ (by decide)

/-- When some trolley line item has a missing product or a NULL price, the
price-snapshot loop necessarily raises. -/
theorem snapshotPrices_error_of_bad (f : Nat → Bool) :
    ∀ (items : List TrolleyView) (s0 s : DBState) (k : Nat),
      s.products = s0.products →
      (∃ it ∈ items, get_product s0 it.productID = none ∨
        ∃ p, get_product s0 it.productID = some p ∧ p.price = none) →
      ∃ e, snapshotPrices f items s k = .error e := by
  intro items
  induction items with
  | nil =>
    intro s0 s k _ hbad
    obtain ⟨it, hmem, _⟩ := hbad
    exact absurd hmem (List.not_mem_nil it)
  | cons it0 rest ih =>
    intro s0 s k hprod hbad
    unfold snapshotPrices
    cases hg : get_product s it0.productID with
    | none => exact ⟨DBError.dbError "Could not fetch price for product.", rfl⟩
    | some p =>
      cases hp : p.price with
      | none =>
        refine ⟨DBError.dbError "Could not fetch price for product.", ?_⟩
        dsimp only
        rw [hp]
      | some v =>
        by_cases hf : f k = true
        · refine ⟨DBError.dbError "Failed to update priceAtSale.", ?_⟩
          dsimp only
          rw [hp]
          dsimp only
          rw [if_pos hf]
        · by_cases hc :
              (s.lineItems.countP (fun li => li.lineItemID == it0.lineItemID) == 0) = true
          · refine ⟨DBError.dbError "Failed to update priceAtSale.", ?_⟩
            dsimp only
            rw [hp]
            dsimp only
            rw [if_neg hf, if_pos hc]
          · have hg0 : get_product s0 it0.productID = some p := by
              rw [← get_product_congr hprod]
              exact hg
            have hbad' : ∃ it ∈ rest, get_product s0 it.productID = none ∨
                ∃ p1, get_product s0 it.productID = some p1 ∧ p1.price = none := by
              obtain ⟨it1, hm, hb⟩ := hbad
              rcases List.mem_cons.mp hm with heq | hm'
              · exfalso
                subst heq
                rcases hb with hb | ⟨p1, hp1, hprice1⟩
                · rw [hg0] at hb
                  exact Option.noConfusion hb
                · rw [hg0] at hp1
                  injection hp1 with hp1
                  rw [← hp1, hp] at hprice1
                  exact Option.noConfusion hprice1
              · exact ⟨it1, hm', hb⟩
            obtain ⟨e, he⟩ := ih s0 (setPriceAtSale s it0.lineItemID v) (k + 1) hprod hbad'
            refine ⟨e, ?_⟩
            dsimp only
            rw [hp]
            dsimp only
            rw [if_neg hf, if_neg hc]
            exact he

/-- C2: every failing `create_order` run rolls the whole transaction back, so
the committed store is exactly the pre-call store (no Order row, links, price
mutations or trolley deletions survive); moreover a product lookup failing
during the price snapshot (missing product row or NULL price) guarantees such
a failing run. -/
theorem create_order_failure_rollback (f : Nat → Bool) (s : DBState)
    (accountID addressID : Nat) :
    (∀ e c', create_order f (Conn.clean s) accountID addressID = (.error e, c') →
      c' = Conn.clean s) ∧
    ((∃ it ∈ get_trolley s accountID, get_product s it.productID = none ∨
        ∃ p, get_product s it.productID = some p ∧ p.price = none) →
      ∃ e c', create_order f (Conn.clean s) accountID addressID = (.error e, c') ∧
        c' = Conn.clean s) := by
  constructor
  · intro e c' h
    exact create_order_error_state h
  · intro hbad
    rcases hres : create_order f (Conn.clean s) accountID addressID with ⟨res, c2⟩
    cases res with
    | error e => exact ⟨e, c2, rfl, create_order_error_state hres⟩
    | ok oid =>
      exfalso
      obtain ⟨hA, hT, s1, k1, hsnap, _⟩ := create_order_ok_shape hres
      obtain ⟨e, he⟩ := snapshotPrices_error_of_bad f (get_trolley s accountID) s s 0 rfl hbad
      rw [hsnap] at he
      exact Except.noConfusion he

/-- Witness for C2: on `sBadPrice` product 6 has a NULL price, so the order
for account 10 fails and the store stays exactly `sBadPrice`. -/
theorem create_order_failure_rollback_witness :
    (create_order noFaults (Conn.clean sBadPrice) 10 1).2 = Conn.clean sBadPrice ∧
    (∃ e c', create_order noFaults (Conn.clean sBadPrice) 10 1 = (.error e, c') ∧
      c' = Conn.clean sBadPrice) :=
  ⟨(create_order_failure_rollback noFaults sBadPrice 10 1).1
      (DBError.dbError "Could not fetch price for product.")
      ((create_order noFaults (Conn.clean sBadPrice) 10 1).2) rfl,
   (create_order_failure_rollback noFaults sBadPrice 10 1).2
      ⟨⟨8, 6, "cpu", 1, none, none⟩, by decide,
        Or.inr ⟨⟨6, "cpu", "", none, 3, 3, false⟩, by decide, rfl⟩⟩⟩

/-- C6: with quantity at least 1 a successful `add_to_trolley` appends a new
`LineItem` row (given quantity, `priceAtSale` unset) and then a `Trolley`
linking row, returning the new `lineItemID`; any failure, in particular a
fault on the Trolley link insert after the LineItem insert, leaves the
committed store unchanged (all-or-nothing). -/
theorem add_to_trolley_spec (f : Nat → Bool) (s : DBState) (accountID productID : Nat)
    (q : Int) :
    (∀ lid c', add_to_trolley f (Conn.clean s) accountID productID q = (.ok lid, c') →
      1 ≤ q ∧ lid = s.nextLineItemID ∧
      c' = Conn.clean { s with
        lineItems := (s.lineItems ++ [⟨s.nextLineItemID, productID, q, none⟩]),
        trolley := (s.trolley ++ [⟨accountID, s.nextLineItemID⟩]),
        nextLineItemID := s.nextLineItemID + 1 }) ∧
    (∀ e c', add_to_trolley f (Conn.clean s) accountID productID q = (.error e, c') →
      c' = Conn.clean s) ∧
    (1 ≤ q → f 0 = false → f 1 = true →
      add_to_trolley f (Conn.clean s) accountID productID q =
        (.error (.dbError "Failed to add line item to trolley."), Conn.clean s)) := by
  refine ⟨?_, ?_, ?_⟩
  · intro lid c' h
    unfold add_to_trolley at h
    split at h
    next hq =>
      injection h with h1 h2
      exact Except.noConfusion h1
    next hq =>
      obtain ⟨w, hbody, hc'⟩ := runTxn_ok h
      dsimp only [Conn.clean] at hbody
      split at hbody
      · exact Except.noConfusion hbody
      split at hbody
      · exact Except.noConfusion hbody
      injection hbody with h1
      injection h1 with ha hb
      refine ⟨Int.not_lt.mp hq, ha.symm, ?_⟩
      rw [hc', ← hb]
      dsimp only [insertLineItem, insertTrolley]
  · intro e c' h
    exact add_to_trolley_error_state h
  · intro hq hf0 hf1
    unfold add_to_trolley runTxn
    rw [if_neg (Int.not_lt.mpr hq)]
    dsimp only [Conn.clean]
    simp only [hf0, hf1, Bool.false_eq_true, if_false, if_true]
    rfl

/-- Witness for C6: a successful add of product 6 to account 10's trolley on
`sW`, and the rolled-back run where the Trolley link insert faults. -/
theorem add_to_trolley_spec_witness :
    (1 ≤ (3 : Int) ∧ (20 : Nat) = sW.nextLineItemID ∧
      (add_to_trolley noFaults (Conn.clean sW) 10 6 3).2 = Conn.clean { sW with
        lineItems := (sW.lineItems ++ [⟨sW.nextLineItemID, 6, 3, none⟩]),
        trolley := (sW.trolley ++ [⟨10, sW.nextLineItemID⟩]),
        nextLineItemID := sW.nextLineItemID + 1 }) ∧
    add_to_trolley linkFault (Conn.clean sW) 10 6 3 =
      (.error (.dbError "Failed to add line item to trolley."), Conn.clean sW) :=
  ⟨(add_to_trolley_spec noFaults sW 10 6 3).1 20
      ((add_to_trolley noFaults (Conn.clean sW) 10 6 3).2) rfl,
   (add_to_trolley_spec linkFault sW 10 6 3).2.2 (by decide) rfl rfl⟩

/-- C8: `remove_from_trolley` first checks that the line item is linked to
the account's trolley; when the check fails it raises a not-found
`ValueError` and the store is unchanged, and when it succeeds the Trolley
linking row and then the LineItem row itself are deleted. -/
theorem remove_from_trolley_spec (f : Nat → Bool) (s : DBState)
    (accountID lineItemID : Nat) :
    (¬ trolleyLinkedTo s accountID lineItemID →
      remove_from_trolley f (Conn.clean s) accountID lineItemID =
        (.error (.valueError "LineItem not found in trolley for account."), Conn.clean s)) ∧
    (∀ r c', remove_from_trolley f (Conn.clean s) accountID lineItemID = (.ok r, c') →
      trolleyLinkedTo s accountID lineItemID ∧
      c' = Conn.clean { s with
        trolley := (s.trolley.filter (fun t =>
          !(t.accountID == accountID && t.lineItemID == lineItemID))),
        lineItems := (s.lineItems.filter (fun li => !(li.lineItemID == lineItemID))) }) := by
  constructor
  · intro h
    have hany : s.trolley.any
        (fun t => t.accountID == accountID && t.lineItemID == lineItemID) = false := by
      rw [← Bool.not_eq_true, List.any_eq_true]
      intro hex
      apply h
      obtain ⟨t, htm, hp⟩ := hex
      rw [Bool.and_eq_true, beq_iff_eq, beq_iff_eq] at hp
      exact ⟨t, htm, hp.1, hp.2⟩
    unfold remove_from_trolley runTxn
    dsimp only [Conn.clean]
    rw [hany]
    rfl
  · intro r c' h
    obtain ⟨w, hbody, hc'⟩ := runTxn_ok h
    dsimp only [Conn.clean] at hbody
    split at hbody
    next hchk => exact Except.noConfusion hbody
    next hchk =>
      have hany : s.trolley.any
          (fun t => t.accountID == accountID && t.lineItemID == lineItemID) = true := by
        cases hval : s.trolley.any
            (fun t => t.accountID == accountID && t.lineItemID == lineItemID) with
        | false => exact absurd (by simp [hval]) hchk
        | true => rfl
      have hlink : trolleyLinkedTo s accountID lineItemID := by
        obtain ⟨t, htm, hp⟩ := List.any_eq_true.mp hany
        rw [Bool.and_eq_true, beq_iff_eq, beq_iff_eq] at hp
        exact ⟨t, htm, hp.1, hp.2⟩
      split at hbody
      · exact Except.noConfusion hbody
      split at hbody
      · exact Except.noConfusion hbody
      split at hbody
      · exact Except.noConfusion hbody
      split at hbody
      · exact Except.noConfusion hbody
      injection hbody with h1
      injection h1 with ha hb
      refine ⟨hlink, ?_⟩
      rw [hc', ← hb]

/-- Witness for C8: line item 99 is not in account 10's trolley on `sW`;
line item 7 is, and gets removed together with its trolley link. -/
theorem remove_from_trolley_spec_witness :
    remove_from_trolley noFaults (Conn.clean sW) 10 99 =
      (.error (.valueError "LineItem not found in trolley for account."), Conn.clean sW) ∧
    (trolleyLinkedTo sW 10 7 ∧
      (remove_from_trolley noFaults (Conn.clean sW) 10 7).2 = Conn.clean { sW with
        trolley := (sW.trolley.filter (fun t => !(t.accountID == 10 && t.lineItemID == 7))),
        lineItems := (sW.lineItems.filter (fun li => !(li.lineItemID == 7))) }) :=
  ⟨(remove_from_trolley_spec noFaults sW 10 99).1 (by decide),
   (remove_from_trolley_spec noFaults sW 10 7).2 (1, 1)
      ((remove_from_trolley noFaults (Conn.clean sW) 10 7).2) rfl⟩

/-- C5: `clear_trolley` on an already-empty trolley returns 0 and changes
nothing; a successful run deletes all Trolley rows of the account, deletes
exactly those of the listed line items that are not referenced by any
`OrderItem` row, and returns the number of LineItems actually deleted.  The
last conjunct identifies the executable deletability predicate with the
declarative one: deleted iff trolley-linked to the account and not ordered. -/
theorem clear_trolley_spec (f : Nat → Bool) (s : DBState) (accountID : Nat) :
    (trolleyIDs s accountID = [] →
      clear_trolley f (Conn.clean s) accountID = (.ok 0, Conn.clean s)) ∧
    (∀ n c', clear_trolley f (Conn.clean s) accountID = (.ok n, c') →
      c'.committed.trolley = s.trolley.filter (fun t => !(t.accountID == accountID)) ∧
      c'.committed.lineItems = s.lineItems.filter (fun li =>
        !(clearDeletable s (trolleyIDs s accountID) li)) ∧
      n = s.lineItems.countP (clearDeletable s (trolleyIDs s accountID)) ∧
      c'.committed.products = s.products ∧ c'.committed.orders = s.orders ∧
      c'.committed.orderItems = s.orderItems ∧
      c'.committed.addresses = s.addresses ∧
      c'.committed.nextLineItemID = s.nextLineItemID) ∧
    (∀ li : LineItemRow, clearDeletable s (trolleyIDs s accountID) li = true ↔
      (trolleyLinkedTo s accountID li.lineItemID ∧
        ¬ referencedByOrder s li.lineItemID)) := by
  refine ⟨?_, ?_, ?_⟩
  · intro h
    unfold trolleyIDs at h
    unfold clear_trolley runTxn
    dsimp only [Conn.clean]
    rw [h]
    rfl
  · intro n c' h
    obtain ⟨w, hbody, hc'⟩ := runTxn_ok h
    dsimp only [Conn.clean] at hbody
    split at hbody
    next hid =>
      rw [List.isEmpty_iff] at hid
      injection hbody with h1
      injection h1 with ha hb
      subst ha
      have hids : trolleyIDs s accountID = [] := hid
      have hfilt : ∀ t ∈ s.trolley, t.accountID ≠ accountID := by
        intro t htm hacc
        have hnil : s.trolley.filter (fun t => t.accountID == accountID) = [] :=
          List.map_eq_nil_iff.mp hid
        rw [List.filter_eq_nil_iff] at hnil
        exact hnil t htm (by simp [hacc])
      rw [hc', ← hb]
      dsimp only [Conn.clean]
      refine ⟨?_, ?_, ?_, rfl, rfl, rfl, rfl, rfl⟩
      · symm
        rw [List.filter_eq_self]
        intro t htm
        simp [hfilt t htm]
      · symm
        rw [List.filter_eq_self]
        intro li _
        rw [hids]
        simp [clearDeletable, List.contains, List.elem]
      · rw [hids]
        symm
        apply List.countP_eq_zero.mpr
        intro li _
        simp [clearDeletable, List.contains, List.elem]
    next hid =>
      split at hbody
      · exact Except.noConfusion hbody
      split at hbody
      · exact Except.noConfusion hbody
      injection hbody with h1
      injection h1 with ha hb
      rw [hc', ← hb]
      dsimp only [Conn.clean]
      refine ⟨?_, rfl, ha.symm, rfl, rfl, rfl, rfl, rfl⟩
      apply List.filter_congr
      intro t htm
      by_cases hacc : (t.accountID == accountID) = true
      · have hcont : ((s.trolley.filter (fun t => t.accountID == accountID)).map
            (fun t => t.lineItemID)).contains t.lineItemID = true := by
          have htf : t ∈ s.trolley.filter (fun t => t.accountID == accountID) :=
            List.mem_filter.mpr ⟨htm, hacc⟩
          have hmm : t.lineItemID ∈ (s.trolley.filter
              (fun t => t.accountID == accountID)).map (fun t => t.lineItemID) :=
            List.mem_map.mpr ⟨t, htf, rfl⟩
          simpa [List.contains] using hmm
        rw [hacc, hcont]
        rfl
      · rw [Bool.not_eq_true] at hacc
        rw [hacc]
        simp
  · intro li
    unfold clearDeletable
    rw [Bool.and_eq_true]
    constructor
    · intro ⟨h1, h2⟩
      constructor
      · have : li.lineItemID ∈ trolleyIDs s accountID := by
          simpa [List.contains] using h1
        obtain ⟨t, htf, hteq⟩ := List.mem_map.mp this
        have := List.mem_filter.mp htf
        exact ⟨t, this.1, by simpa using this.2, hteq⟩
      · intro ⟨oi, hoim, hoieq⟩
        rw [Bool.not_eq_true', ← Bool.not_eq_true, List.any_eq_true] at h2
        exact h2 ⟨oi, hoim, by simp [hoieq]⟩
    · intro ⟨⟨t, htm, hta, htl⟩, h2⟩
      constructor
      · have : li.lineItemID ∈ trolleyIDs s accountID :=
          List.mem_map.mpr ⟨t, List.mem_filter.mpr ⟨htm, by simp [hta]⟩, htl⟩
        simpa [List.contains] using this
      · rw [Bool.not_eq_true', ← Bool.not_eq_true, List.any_eq_true]
        intro ⟨oi, hoim, hoieq⟩
        exact h2 ⟨oi, hoim, by simpa using hoieq⟩

/-- Witness for C5: account 12's trolley is empty on `sW` (no-op returning 0);
clearing account 10's trolley removes its two trolley rows and both unordered
line items and returns 2. -/
theorem clear_trolley_spec_witness :
    clear_trolley noFaults (Conn.clean sW) 12 = (.ok 0, Conn.clean sW) ∧
    ((clear_trolley noFaults (Conn.clean sW) 10).2.committed.trolley =
        sW.trolley.filter (fun t => !(t.accountID == 10)) ∧
      (clear_trolley noFaults (Conn.clean sW) 10).2.committed.lineItems =
        sW.lineItems.filter (fun li => !(clearDeletable sW (trolleyIDs sW 10) li)) ∧
      (2 : Nat) = sW.lineItems.countP (clearDeletable sW (trolleyIDs sW 10)) ∧
      (clear_trolley noFaults (Conn.clean sW) 10).2.committed.products = sW.products ∧
      (clear_trolley noFaults (Conn.clean sW) 10).2.committed.orders = sW.orders ∧
      (clear_trolley noFaults (Conn.clean sW) 10).2.committed.orderItems = sW.orderItems ∧
      (clear_trolley noFaults (Conn.clean sW) 10).2.committed.addresses = sW.addresses ∧
      (clear_trolley noFaults (Conn.clean sW) 10).2.committed.nextLineItemID =
        sW.nextLineItemID) :=
  ⟨(clear_trolley_spec noFaults sW 12).1 (by decide),
   (clear_trolley_spec noFaults sW 10).2.1 2
      ((clear_trolley noFaults (Conn.clean sW) 10).2) rfl⟩

/-- Counterexample to C9 as stated: on `sW` product 5 is associated with
every tag name occurring in the request `["alpha", "alpha"]`, yet
`get_products` returns no product for that request, because the SQL `HAVING
COUNT(DISTINCT t.tagID) = %s` clause is bound to `len(tags)` and counts
duplicate names once. -/
theorem get_products_duplicate_request_counterexample :
    (∃ p ∈ sW.products, p.productID = 5) ∧
    (∀ name ∈ ["alpha", "alpha"], productHasTag sW 5 name) ∧
    get_products sW ["alpha", "alpha"] = [] := by decide

/-- C9 (amended): for every non-empty request without duplicate tag names,
and a `Tag` table with unique ids and unique names (the schema's primary-key
and uniqueness constraints), `get_products` returns exactly the products
associated with all of the requested tags. -/
theorem get_products_intersection (s : DBState) (tags : List String) (p : ProductRow)
    (hne : tags ≠ []) (hnd : tags.Nodup)
    (hids : (s.tags.map (fun t => t.tagID)).Nodup)
    (hnames : (s.tags.map (fun t => t.name)).Nodup) :
    p ∈ get_products s tags ↔
      p ∈ s.products ∧ ∀ name ∈ tags, productHasTag s p.productID name := by
  unfold get_products
  rw [if_neg (by simpa [List.isEmpty_iff] using hne)]
  rw [List.mem_filter]
  refine and_congr Iff.rfl ?_
  unfold matchedTagIDs
  set pred := fun t : TagRow => tags.contains t.name &&
    s.productTags.any (fun pt => pt.productID == p.productID && pt.tagID == t.tagID)
    with hpred
  set T := s.tags.filter pred with hT
  have hTsub : List.Sublist T s.tags := List.filter_sublist s.tags
  have hTidsNodup : (T.map (fun t => t.tagID)).Nodup :=
    List.Nodup.sublist (hTsub.map (fun t => t.tagID)) hids
  have hdedup : ((T.map (fun t => t.tagID)).dedup) = T.map (fun t => t.tagID) :=
    List.dedup_eq_self.mpr hTidsNodup
  rw [hdedup, beq_iff_eq, List.length_map]
  have hnamesNodup : (T.map (fun t => t.name)).Nodup :=
    List.Nodup.sublist (hTsub.map (fun t => t.name)) hnames
  have hnamesSub : (T.map (fun t => t.name)) ⊆ tags := by
    intro x hx
    obtain ⟨t, htm, hteq⟩ := List.mem_map.mp hx
    have hpt := (List.mem_filter.mp htm).2
    rw [hpred, Bool.and_eq_true] at hpt
    have : t.name ∈ tags := by simpa [List.contains] using hpt.1
    rw [← hteq]
    exact this
  constructor
  · intro hlen
    have hlen2 : tags.length ≤ (T.map (fun t => t.name)).length := by
      rw [List.length_map, hlen]
    have hperm : List.Perm (T.map (fun t => t.name)) tags :=
      List.Subperm.perm_of_length_le
        (List.subperm_of_subset hnamesNodup hnamesSub) hlen2
    intro name hname
    have : name ∈ T.map (fun t => t.name) := hperm.mem_iff.mpr hname
    obtain ⟨t, htm, hteq⟩ := List.mem_map.mp this
    have htags := List.mem_filter.mp htm
    have hpt := htags.2
    rw [hpred, Bool.and_eq_true] at hpt
    obtain ⟨pt, hptm, hpteq⟩ := List.any_eq_true.mp hpt.2
    rw [Bool.and_eq_true, beq_iff_eq, beq_iff_eq] at hpteq
    exact ⟨t, htags.1, hteq, pt, hptm, hpteq.1, hpteq.2⟩
  · intro hall
    have htagsSub : tags ⊆ (T.map (fun t => t.name)) := by
      intro name hname
      obtain ⟨t, htm, hteq, pt, hptm, hpt1, hpt2⟩ := hall name hname
      have hpredt : pred t = true := by
        rw [hpred, Bool.and_eq_true]
        constructor
        · rw [hteq]
          simpa [List.contains] using hname
        · exact List.any_eq_true.mpr ⟨pt, hptm, by simp [hpt1, hpt2]⟩
      have : t ∈ T := List.mem_filter.mpr ⟨htm, hpredt⟩
      rw [← hteq]
      exact List.mem_map.mpr ⟨t, this, rfl⟩
    have h1 : tags.length ≤ (T.map (fun t => t.name)).length :=
      List.Subperm.length_le (List.subperm_of_subset hnd htagsSub)
    have h2 : (T.map (fun t => t.name)).length ≤ tags.length :=
      List.Subperm.length_le (List.subperm_of_subset hnamesNodup hnamesSub)
    rw [List.length_map] at h1 h2
    exact Nat.le_antisymm h2 h1

/-- Witness for the amended C9: product 5 carries both tags of the request
`["alpha", "beta"]` on `sW` and is returned. -/
theorem get_products_intersection_witness :
    (⟨5, "gpu", "", some 100, 3, 3, false⟩ : ProductRow) ∈
      get_products sW ["alpha", "beta"] :=
  (get_products_intersection sW ["alpha", "beta"] ⟨5, "gpu", "", some 100, 3, 3, false⟩
    (by decide) (by decide) (by decide) (by decide)).mpr ⟨by decide, by decide⟩

/-! Helper lemmas for the step-relation claim: searching a filtered or
extended table, and success shapes of the remaining operations. -/

theorem find?_filter_of_imp {α : Type} {p q : α → Bool} (himp : ∀ x, p x = true → q x = true) :
    ∀ l : List α, (l.filter q).find? p = l.find? p := by
  intro l
  induction l with
  | nil => rfl
  | cons a l ih =>
    by_cases hq : q a = true
    · rw [List.filter_cons_of_pos hq]
      by_cases hp : p a = true
      · rw [List.find?_cons_of_pos _ hp, List.find?_cons_of_pos _ hp]
      · rw [List.find?_cons_of_neg _ hp, List.find?_cons_of_neg _ hp]
        exact ih
    · rw [List.filter_cons_of_neg hq]
      have hp : ¬ p a = true := fun hpa => hq (himp a hpa)
      rw [List.find?_cons_of_neg _ hp]
      exact ih

theorem find?_append_of_isSome {α : Type} (p : α → Bool) (l1 l2 : List α)
    (h : (l1.find? p).isSome) : (l1 ++ l2).find? p = l1.find? p := by
  rw [List.find?_append]
  cases hf : l1.find? p with
  | none => rw [hf] at h; simp at h
  | some x => rfl

theorem keys_eq_lineItemIDs {l1 l2 : List LineItemRow} (h : l1.map liKey = l2.map liKey) :
    l1.map (fun li => li.lineItemID) = l2.map (fun li => li.lineItemID) := by
  have h2 := congrArg (List.map (fun k : Nat × Nat × Int => k.1)) h
  simpa [List.map_map, Function.comp, liKey] using h2

theorem findLineItem_map_of_id_preserving (s : DBState) (g : LineItemRow → LineItemRow)
    (hg : ∀ li, (g li).lineItemID = li.lineItemID) (lid : Nat) :
    findLineItem { s with lineItems := s.lineItems.map g } lid =
      (findLineItem s lid).map g := by
  unfold findLineItem
  rw [List.find?_map]
  have hpe : ((fun li : LineItemRow => li.lineItemID == lid) ∘ g) =
      (fun li : LineItemRow => li.lineItemID == lid) := by
    funext li
    simp [Function.comp, hg li]
  rw [hpe]

theorem add_to_trolley_ok_shape {f : Nat → Bool} {s : DBState} {a pid : Nat} {q : Int}
    {lid : Nat} {c' : Conn}
    (h : add_to_trolley f (Conn.clean s) a pid q = (.ok lid, c')) :
    lid = s.nextLineItemID ∧
    c' = Conn.clean { s with
      lineItems := (s.lineItems ++ [⟨s.nextLineItemID, pid, q, none⟩]),
      trolley := (s.trolley ++ [⟨a, s.nextLineItemID⟩]),
      nextLineItemID := s.nextLineItemID + 1 } := by
  unfold add_to_trolley at h
  split at h
  next hq =>
    injection h with h1 h2
    exact Except.noConfusion h1
  next hq =>
    obtain ⟨w, hbody, hc'⟩ := runTxn_ok h
    dsimp only [Conn.clean] at hbody
    split at hbody
    · exact Except.noConfusion hbody
    split at hbody
    · exact Except.noConfusion hbody
    injection hbody with h1
    injection h1 with ha hb
    refine ⟨ha.symm, ?_⟩
    rw [hc', ← hb]
    dsimp only [insertLineItem, insertTrolley]

theorem change_quantity_ok_shape {f : Nat → Bool} {s : DBState} {a pid : Nat} {q : Int}
    {n : Nat} {c' : Conn}
    (h : change_quantity_of_product_in_trolley f (Conn.clean s) a pid q = (.ok n, c')) :
    ∃ lid, c' = Conn.clean { s with lineItems := (s.lineItems.map (fun li =>
      if li.lineItemID == lid then { li with quantity := q } else li)) } := by
  unfold change_quantity_of_product_in_trolley at h
  split at h
  next hq =>
    injection h with h1 h2
    exact Except.noConfusion h1
  next hq =>
    obtain ⟨w, hbody, hc'⟩ := runTxn_ok h
    dsimp only [Conn.clean] at hbody
    split at hbody
    · exact Except.noConfusion hbody
    next lid hlid =>
      split at hbody
      · exact Except.noConfusion hbody
      injection hbody with h1
      injection h1 with ha hb
      exact ⟨lid, by rw [hc', ← hb]⟩

theorem remove_from_trolley_ok_shape {f : Nat → Bool} {s : DBState} {a lid : Nat}
    {r : Nat × Nat} {c' : Conn}
    (h : remove_from_trolley f (Conn.clean s) a lid = (.ok r, c')) :
    trolleyLinkedTo s a lid ∧
    c' = Conn.clean { s with
      trolley := (s.trolley.filter (fun t => !(t.accountID == a && t.lineItemID == lid))),
      lineItems := (s.lineItems.filter (fun li => !(li.lineItemID == lid))) } := by
  obtain ⟨w, hbody, hc'⟩ := runTxn_ok h
  dsimp only [Conn.clean] at hbody
  split at hbody
  next hchk => exact Except.noConfusion hbody
  next hchk =>
    have hany : s.trolley.any
        (fun t => t.accountID == a && t.lineItemID == lid) = true := by
      cases hval : s.trolley.any
          (fun t => t.accountID == a && t.lineItemID == lid) with
      | false => exact absurd (by simp [hval]) hchk
      | true => rfl
    have hlink : trolleyLinkedTo s a lid := by
      obtain ⟨t, htm, hp⟩ := List.any_eq_true.mp hany
      rw [Bool.and_eq_true, beq_iff_eq, beq_iff_eq] at hp
      exact ⟨t, htm, hp.1, hp.2⟩
    split at hbody
    · exact Except.noConfusion hbody
    split at hbody
    · exact Except.noConfusion hbody
    split at hbody
    · exact Except.noConfusion hbody
    split at hbody
    · exact Except.noConfusion hbody
    injection hbody with h1
    injection h1 with ha hb
    refine ⟨hlink, ?_⟩
    rw [hc', ← hb]

theorem clear_trolley_ok_shape {f : Nat → Bool} {s : DBState} {a : Nat}
    {n : Nat} {c' : Conn} (h : clear_trolley f (Conn.clean s) a = (.ok n, c')) :
    c' = Conn.clean s ∨
    c' = Conn.clean { s with
      trolley := (s.trolley.filter (fun t =>
        !(t.accountID == a && (trolleyIDs s a).contains t.lineItemID))),
      lineItems := (s.lineItems.filter (fun li =>
        !(clearDeletable s (trolleyIDs s a) li))) } := by
  obtain ⟨w, hbody, hc'⟩ := runTxn_ok h
  dsimp only [Conn.clean] at hbody
  split at hbody
  next hid =>
    injection hbody with h1
    injection h1 with ha hb
    left
    rw [hc', ← hb]
  next hid =>
    split at hbody
    · exact Except.noConfusion hbody
    split at hbody
    · exact Except.noConfusion hbody
    injection hbody with h1
    injection h1 with ha hb
    right
    rw [hc', ← hb]
    rfl

theorem update_product_ok_shape {f : Nat → Bool} {s : DBState} {pid : Nat}
    {u : ProductFields} {n : Nat} {c' : Conn}
    (h : update_product f (Conn.clean s) pid u = (.ok n, c')) :
    c' = Conn.clean { s with products := (s.products.map (fun p =>
      if p.productID == pid then applyProductFields u p else p)) } := by
  unfold update_product at h
  split at h
  next hu =>
    injection h with h1 h2
    exact Except.noConfusion h1
  next hu =>
    obtain ⟨w, hbody, hc'⟩ := runTxn_ok h
    dsimp only [Conn.clean] at hbody
    split at hbody
    · exact Except.noConfusion hbody
    injection hbody with h1
    injection h1 with ha hb
    rw [hc', ← hb]

/-- One committed step of any mutating operation preserves the schema
invariant, keeps every ordered line item ordered, and never changes the
stored `priceAtSale` of an ordered line item. -/
theorem step_preserves_inv_and_prices {s s' : DBState} (h : Step s s') (hinv : Inv s) :
    Inv s' ∧ ∀ lid, referencedByOrder s lid →
      referencedByOrder s' lid ∧ priceAtSaleOf s' lid = priceAtSaleOf s lid := by
  obtain ⟨hsep, hofk, htfk, huniq, hfresh⟩ := hinv
  cases h with
  | stepAddToTrolley f a pid q =>
    rcases hres : add_to_trolley f (Conn.clean s) a pid q with ⟨res, c2⟩
    cases res with
    | error e =>
      rw [add_to_trolley_error_state hres]
      exact ⟨⟨hsep, hofk, htfk, huniq, hfresh⟩, fun lid h0 => ⟨h0, rfl⟩⟩
    | ok lid0 =>
      obtain ⟨hlid, hc2⟩ := add_to_trolley_ok_shape hres
      rw [hc2]
      dsimp only [Conn.clean]
      constructor
      · refine ⟨?_, ?_, ?_, ?_, ?_⟩
        · intro oi hoi t ht
          rcases List.mem_append.mp ht with ht1 | ht2
          · exact hsep oi hoi t ht1
          · have ht2' : t = ⟨a, s.nextLineItemID⟩ := by simpa using ht2
            obtain ⟨li, hlim, hlieq⟩ := hofk oi hoi
            have h1 := hfresh li hlim
            rw [ht2']
            intro hcontra
            dsimp at hcontra
            rw [hlieq, ← hcontra] at h1
            exact Nat.lt_irrefl _ h1
        · intro oi hoi
          obtain ⟨li, hlim, hlieq⟩ := hofk oi hoi
          exact ⟨li, List.mem_append_left _ hlim, hlieq⟩
        · intro t ht
          rcases List.mem_append.mp ht with ht1 | ht2
          · obtain ⟨li, hlim, hlieq⟩ := htfk t ht1
            exact ⟨li, List.mem_append_left _ hlim, hlieq⟩
          · have ht2' : t = ⟨a, s.nextLineItemID⟩ := by simpa using ht2
            refine ⟨⟨s.nextLineItemID, pid, q, none⟩,
              List.mem_append_right _ (by simp), ?_⟩
            rw [ht2']
        · intro t1 ht1 t2 ht2 heq
          have hold : ∀ t ∈ s.trolley, t.lineItemID < s.nextLineItemID := by
            intro t ht0
            obtain ⟨li, hlim, hlieq⟩ := htfk t ht0
            rw [← hlieq]
            exact hfresh li hlim
          rcases List.mem_append.mp ht1 with h1 | h1 <;>
            rcases List.mem_append.mp ht2 with h2 | h2
          · exact huniq t1 h1 t2 h2 heq
          · have h2' : t2 = ⟨a, s.nextLineItemID⟩ := by simpa using h2
            exfalso
            have h3 := hold t1 h1
            rw [heq, h2'] at h3
            exact Nat.lt_irrefl _ h3
          · have h1' : t1 = ⟨a, s.nextLineItemID⟩ := by simpa using h1
            exfalso
            have h3 := hold t2 h2
            rw [← heq, h1'] at h3
            exact Nat.lt_irrefl _ h3
          · have h1' : t1 = ⟨a, s.nextLineItemID⟩ := by simpa using h1
            have h2' : t2 = ⟨a, s.nextLineItemID⟩ := by simpa using h2
            rw [h1', h2']
        · intro li hli
          rcases List.mem_append.mp hli with h1 | h1
          · exact Nat.lt_trans (hfresh li h1) (Nat.lt_succ_self _)
          · have h1' : li = ⟨s.nextLineItemID, pid, q, none⟩ := by simpa using h1
            rw [h1']
            exact Nat.lt_succ_self _
      · intro lid href
        refine ⟨href, ?_⟩
        obtain ⟨oi, hoi, hoieq⟩ := href
        obtain ⟨li, hlim, hlieq⟩ := hofk oi hoi
        have hsome : (s.lineItems.find? (fun li => li.lineItemID == lid)).isSome :=
          List.find?_isSome.mpr ⟨li, hlim, by simp [hlieq, hoieq]⟩
        unfold priceAtSaleOf findLineItem
        rw [find?_append_of_isSome _ _ _ hsome]
  | stepChangeQuantity f a pid q =>
    rcases hres : change_quantity_of_product_in_trolley f (Conn.clean s) a pid q
      with ⟨res, c2⟩
    cases res with
    | error e =>
      rw [change_quantity_error_state hres]
      exact ⟨⟨hsep, hofk, htfk, huniq, hfresh⟩, fun lid h0 => ⟨h0, rfl⟩⟩
    | ok n =>
      obtain ⟨lid0, hc2⟩ := change_quantity_ok_shape hres
      rw [hc2]
      dsimp only [Conn.clean]
      set g := fun li : LineItemRow =>
        if li.lineItemID == lid0 then { li with quantity := q } else li with hg
      have hgid : ∀ li, (g li).lineItemID = li.lineItemID := by
        intro li
        rw [hg]
        dsimp only
        split <;> rfl
      have hgprice : ∀ li, (g li).priceAtSale = li.priceAtSale := by
        intro li
        rw [hg]
        dsimp only
        split <;> rfl
      constructor
      · refine ⟨hsep, ?_, ?_, huniq, ?_⟩
        · intro oi hoi
          obtain ⟨li, hlim, hlieq⟩ := hofk oi hoi
          exact ⟨g li, List.mem_map.mpr ⟨li, hlim, rfl⟩, by rw [hgid li]; exact hlieq⟩
        · intro t ht
          obtain ⟨li, hlim, hlieq⟩ := htfk t ht
          exact ⟨g li, List.mem_map.mpr ⟨li, hlim, rfl⟩, by rw [hgid li]; exact hlieq⟩
        · intro li hli
          obtain ⟨li0, hlim, heq⟩ := List.mem_map.mp hli
          rw [← heq, hgid li0]
          exact hfresh li0 hlim
      · intro lid href
        refine ⟨href, ?_⟩
        unfold priceAtSaleOf
        rw [findLineItem_map_of_id_preserving s g hgid lid, Option.map_map]
        congr 1
        funext li
        simp [Function.comp, hgprice li]
  | stepRemoveFromTrolley f a lid0 =>
    rcases hres : remove_from_trolley f (Conn.clean s) a lid0 with ⟨res, c2⟩
    cases res with
    | error e =>
      rw [remove_from_trolley_error_state hres]
      exact ⟨⟨hsep, hofk, htfk, huniq, hfresh⟩, fun lid h0 => ⟨h0, rfl⟩⟩
    | ok r =>
      obtain ⟨⟨trow, htrm, htra, htrl⟩, hc2⟩ := remove_from_trolley_ok_shape hres
      rw [hc2]
      dsimp only [Conn.clean]
      have hnotref : ∀ oi ∈ s.orderItems, oi.lineItemID ≠ lid0 := by
        intro oi hoi hcontra
        exact hsep oi hoi trow htrm (by rw [htrl, hcontra])
      constructor
      · refine ⟨?_, ?_, ?_, ?_, ?_⟩
        · intro oi hoi t ht
          exact hsep oi hoi t (List.mem_filter.mp ht).1
        · intro oi hoi
          obtain ⟨li, hlim, hlieq⟩ := hofk oi hoi
          refine ⟨li, List.mem_filter.mpr ⟨hlim, ?_⟩, hlieq⟩
          simp [hlieq, hnotref oi hoi]
        · intro t ht
          have htmem := (List.mem_filter.mp ht).1
          have htpred := (List.mem_filter.mp ht).2
          obtain ⟨li, hlim, hlieq⟩ := htfk t htmem
          refine ⟨li, List.mem_filter.mpr ⟨hlim, ?_⟩, hlieq⟩
          rw [hlieq]
          by_cases hx : t.lineItemID = lid0
          · exfalso
            have hteq : t = trow := huniq t htmem trow htrm (by rw [hx, htrl])
            rw [hteq] at htpred
            simp [htra, htrl] at htpred
          · simp [hx]
        · intro t1 ht1 t2 ht2 heq
          exact huniq t1 (List.mem_filter.mp ht1).1 t2 (List.mem_filter.mp ht2).1 heq
        · intro li hli
          exact hfresh li (List.mem_filter.mp hli).1
      · intro lid href
        refine ⟨href, ?_⟩
        obtain ⟨oi, hoi, hoieq⟩ := href
        have himp : ∀ x : LineItemRow, (x.lineItemID == lid) = true →
            (!(x.lineItemID == lid0)) = true := by
          intro x hx
          have hxl : x.lineItemID = lid := by simpa using hx
          have hne : lid ≠ lid0 := by
            rw [← hoieq]
            exact hnotref oi hoi
          simp [hxl, hne]
        unfold priceAtSaleOf findLineItem
        rw [find?_filter_of_imp himp s.lineItems]
  | stepClearTrolley f a =>
    rcases hres : clear_trolley f (Conn.clean s) a with ⟨res, c2⟩
    cases res with
    | error e =>
      rw [clear_trolley_error_state hres]
      exact ⟨⟨hsep, hofk, htfk, huniq, hfresh⟩, fun lid h0 => ⟨h0, rfl⟩⟩
    | ok n =>
      rcases clear_trolley_ok_shape hres with hc2 | hc2
      · rw [hc2]
        exact ⟨⟨hsep, hofk, htfk, huniq, hfresh⟩, fun lid h0 => ⟨h0, rfl⟩⟩
      · rw [hc2]
        dsimp only [Conn.clean]
        constructor
        · refine ⟨?_, ?_, ?_, ?_, ?_⟩
          · intro oi hoi t ht
            exact hsep oi hoi t (List.mem_filter.mp ht).1
          · intro oi hoi
            obtain ⟨li, hlim, hlieq⟩ := hofk oi hoi
            refine ⟨li, List.mem_filter.mpr ⟨hlim, ?_⟩, hlieq⟩
            have hany : s.orderItems.any (fun x => x.lineItemID == li.lineItemID) = true :=
              List.any_eq_true.mpr ⟨oi, hoi, by simp [hlieq]⟩
            simp [clearDeletable, hany]
          · intro t ht
            have htmem := (List.mem_filter.mp ht).1
            have htpred := (List.mem_filter.mp ht).2
            obtain ⟨li, hlim, hlieq⟩ := htfk t htmem
            refine ⟨li, List.mem_filter.mpr ⟨hlim, ?_⟩, hlieq⟩
            by_cases hcont : (trolleyIDs s a).contains li.lineItemID = true
            · exfalso
              have hmm : li.lineItemID ∈ trolleyIDs s a := by
                simpa [List.contains] using hcont
              obtain ⟨trow, htrf, htrl⟩ := List.mem_map.mp hmm
              have htr := List.mem_filter.mp htrf
              have hteq : t = trow := huniq t htmem trow htr.1 (hlieq.symm.trans htrl.symm)
              rw [hteq] at htpred
              simp [htr.2, htrl, hcont] at htpred
              exact htpred hmm
            · rw [Bool.not_eq_true] at hcont
              unfold clearDeletable
              rw [hcont]
              rfl
          · intro t1 ht1 t2 ht2 heq
            exact huniq t1 (List.mem_filter.mp ht1).1 t2 (List.mem_filter.mp ht2).1 heq
          · intro li hli
            exact hfresh li (List.mem_filter.mp hli).1
        · intro lid href
          refine ⟨href, ?_⟩
          obtain ⟨oi, hoi, hoieq⟩ := href
          have himp : ∀ x : LineItemRow, (x.lineItemID == lid) = true →
              (!(clearDeletable s (trolleyIDs s a) x)) = true := by
            intro x hx
            have hxl : x.lineItemID = lid := by simpa using hx
            have hany : s.orderItems.any (fun y => y.lineItemID == x.lineItemID) = true :=
              List.any_eq_true.mpr ⟨oi, hoi, by simp [hxl, hoieq]⟩
            simp [clearDeletable, hany]
          unfold priceAtSaleOf findLineItem
          rw [find?_filter_of_imp himp s.lineItems]
  | stepCreateOrder f a ad =>
    rcases hres : create_order f (Conn.clean s) a ad with ⟨res, c2⟩
    cases res with
    | error e =>
      rw [create_order_error_state hres]
      exact ⟨⟨hsep, hofk, htfk, huniq, hfresh⟩, fun lid h0 => ⟨h0, rfl⟩⟩
    | ok oid =>
      obtain ⟨hA, hT, s1, k1, hsnap, hoid, hc2⟩ := create_order_ok_shape hres
      rw [hc2]
      dsimp only [Conn.clean]
      obtain ⟨hfp, hft, hfo, hfoi, hfa, hftg, hfpt, hfnli, hfno⟩ :=
        snapshotPrices_ok_frame f _ s s1 0 k1 hsnap
      have hlids := keys_eq_lineItemIDs (snapshotPrices_ok_keys f _ s s1 0 k1 hsnap)
      have htrans : ∀ lid, (∃ li ∈ s.lineItems, li.lineItemID = lid) →
          ∃ li ∈ s1.lineItems, li.lineItemID = lid := by
        intro lid hex
        obtain ⟨li, hlim, hlieq⟩ := hex
        have hmm : lid ∈ s1.lineItems.map (fun li => li.lineItemID) := by
          rw [hlids]
          exact List.mem_map.mpr ⟨li, hlim, hlieq⟩
        obtain ⟨li1, h1, h2⟩ := List.mem_map.mp hmm
        exact ⟨li1, h1, h2⟩
      constructor
      · refine ⟨?_, ?_, ?_, ?_, ?_⟩
        · intro oi hoi t ht
          have htf := List.mem_filter.mp ht
          have htmem : t ∈ s.trolley := by rw [← hft]; exact htf.1
          rcases List.mem_append.mp hoi with h1 | h1
          · have h1' : oi ∈ s.orderItems := by rw [← hfoi]; exact h1
            exact hsep oi h1' t htmem
          · obtain ⟨it, hitm, hiteq⟩ := List.mem_map.mp h1
            obtain ⟨trow, htrm, htra, hitl, _⟩ := get_trolley_mem hitm
            intro hcontra
            have hoi_lid : oi.lineItemID = it.lineItemID := by rw [← hiteq]
            have hteq : t = trow :=
              huniq t htmem trow htrm (by rw [hcontra, hoi_lid, hitl])
            have hpred := htf.2
            rw [hteq] at hpred
            have hcont : ((get_trolley s a).map
                (fun it => it.lineItemID)).contains trow.lineItemID = true := by
              have hmm : trow.lineItemID ∈ (get_trolley s a).map
                  (fun it => it.lineItemID) :=
                List.mem_map.mpr ⟨it, hitm, hitl⟩
              simpa [List.contains] using hmm
            simp [htra, hcont] at hpred
            exact hpred it hitm hitl
        · intro oi hoi
          rcases List.mem_append.mp hoi with h1 | h1
          · have h1' : oi ∈ s.orderItems := by rw [← hfoi]; exact h1
            exact htrans _ (hofk oi h1')
          · obtain ⟨it, hitm, hiteq⟩ := List.mem_map.mp h1
            obtain ⟨trow, htrm, htra, hitl, li, hfli, hlil, _, _⟩ := get_trolley_mem hitm
            apply htrans
            refine ⟨li, List.mem_of_find?_eq_some hfli, ?_⟩
            rw [hlil, ← hiteq]
        · intro t ht
          have htf := List.mem_filter.mp ht
          have htmem : t ∈ s.trolley := by rw [← hft]; exact htf.1
          exact htrans _ (htfk t htmem)
        · intro t1 ht1 t2 ht2 heq
          have h1 : t1 ∈ s.trolley := by rw [← hft]; exact (List.mem_filter.mp ht1).1
          have h2 : t2 ∈ s.trolley := by rw [← hft]; exact (List.mem_filter.mp ht2).1
          exact huniq t1 h1 t2 h2 heq
        · intro li hli
          have hmm : li.lineItemID ∈ s.lineItems.map (fun li => li.lineItemID) := by
            rw [← hlids]
            exact List.mem_map.mpr ⟨li, hli, rfl⟩
          obtain ⟨li0, h0, h0eq⟩ := List.mem_map.mp hmm
          rw [hfnli, ← h0eq]
          exact hfresh li0 h0
      · intro lid href
        constructor
        · obtain ⟨oi, hoi, hoieq⟩ := href
          refine ⟨oi, List.mem_append_left _ ?_, hoieq⟩
          rw [hfoi]
          exact hoi
        · have hne : ∀ it ∈ get_trolley s a, it.lineItemID ≠ lid := by
            intro it hitm hcontra
            obtain ⟨trow, htrm, htra, hitl, _⟩ := get_trolley_mem hitm
            obtain ⟨oi, hoi, hoieq⟩ := href
            apply hsep oi hoi trow htrm
            rw [← hitl, hcontra, hoieq]
          have huntouched :=
            snapshotPrices_ok_untouched f _ s s1 0 k1 hsnap lid hne
          show priceAtSaleOf s1 lid = priceAtSaleOf s lid
          unfold priceAtSaleOf
          rw [huntouched]
  | stepUpdateProduct f pid u =>
    rcases hres : update_product f (Conn.clean s) pid u with ⟨res, c2⟩
    cases res with
    | error e =>
      rw [update_product_error_state hres]
      exact ⟨⟨hsep, hofk, htfk, huniq, hfresh⟩, fun lid h0 => ⟨h0, rfl⟩⟩
    | ok n =>
      rw [update_product_ok_shape hres]
      dsimp only [Conn.clean]
      exact ⟨⟨hsep, hofk, htfk, huniq, hfresh⟩, fun lid h0 => ⟨h0, rfl⟩⟩

/-- C3: viewing the Database operations as a step relation on the store, in
any store satisfying the schema invariant, once a line item is referenced by
an `OrderItem` row no sequence of operations (in particular `update_product`,
which writes only the `Product` table, and `create_order`, which snapshots
prices only for line items currently in the calling account's trolley) ever
changes its stored `priceAtSale`, and the invariant is maintained. -/
theorem ordered_priceAtSale_immutable (s s' : DBState)
    (h : Relation.ReflTransGen Step s s') (hinv : Inv s) :
    Inv s' ∧ ∀ lid, referencedByOrder s lid →
      referencedByOrder s' lid ∧ priceAtSaleOf s' lid = priceAtSaleOf s lid := by
  induction h with
  | refl => exact ⟨hinv, fun lid h0 => ⟨h0, rfl⟩⟩
  | tail hab hbc ih =>
    obtain ⟨hinvb, hpres⟩ := ih
    obtain ⟨hinvc, hpresc⟩ := step_preserves_inv_and_prices hbc hinvb
    refine ⟨hinvc, fun lid href => ?_⟩
    obtain ⟨hrefb, heqb⟩ := hpres lid href
    obtain ⟨hrefc, heqc⟩ := hpresc lid hrefb
    exact ⟨hrefc, heqc.trans heqb⟩

/-- Witness for C3: on `sW`, after an `update_product` step that changes
product 5's current price, ordered line item 3 still carries its frozen
`priceAtSale`. -/
theorem ordered_priceAtSale_immutable_witness :
    Inv sWstep ∧ ∀ lid, referencedByOrder sW lid →
      referencedByOrder sWstep lid ∧ priceAtSaleOf sWstep lid = priceAtSaleOf sW lid :=
  ordered_priceAtSale_immutable sW sWstep
    (Relation.ReflTransGen.single (Step.stepUpdateProduct sW noFaults 5 priceOnly))
    (by decide)

end Shop
